import Mathlib

/-!
# Canvacord: pixel transforms and GIF frame loops

A shallow embedding of `src/src/Main.js` and `src/lib/Error.js`.

JavaScript numbers are IEEE-754 doubles.  Every finite double is an integer
multiple of `2^-1074`, so a finite number is modelled by that integer
(`JSNum.fin v` stands for `v * 2^-1074`), and every arithmetic operation
rounds its exact result to 53 significant bits, ties to even.  Overflow to
infinity is not modelled: no value of this program exceeds `2^10`.
-/

namespace Canvacord

/-! ## Numbers -/

/-- The integer that stands for the number `1.0`: two to the power 1074. -/
@[irreducible] def scale : Nat := 2 ^ 1074

/-- First exponent among `k`, `2k`, `4k`, ... whose power of two exceeds `n`
(at most `fuel` doublings). -/
def upperExp : Nat → Nat → Nat → Nat
  | 0, k, _ => k
  | fuel + 1, k, n => if n < 2 ^ k then k else upperExp fuel (2 * k) n

/-- Bisection between `lo` and `hi`, keeping `2^lo ≤ n < 2^hi`, until `hi = lo + 1`. -/
def bisectExp : Nat → Nat → Nat → Nat → Nat
  | 0, _, hi, _ => hi
  | fuel + 1, lo, hi, n =>
    if hi ≤ lo + 1 then hi
    else if n < 2 ^ ((lo + hi) / 2) then bisectExp fuel lo ((lo + hi) / 2) n
    else bisectExp fuel ((lo + hi) / 2) hi n

/-- Number of binary digits of `n` (zero for zero): the least `L` with `n < 2^L`. -/
def bitLen (n : Nat) : Nat :=
  if n = 0 then 0 else bisectExp (upperExp n 1 n) 0 (upperExp n 1 n) n

/-- Quotient `N / 2^s` rounded to the nearest integer, ties to the even one. -/
def rne (N s : Nat) : Nat :=
  if 2 * (N % 2 ^ s) < 2 ^ s then N / 2 ^ s
  else if 2 ^ s < 2 * (N % 2 ^ s) then N / 2 ^ s + 1
  else if (N / 2 ^ s) % 2 = 0 then N / 2 ^ s else N / 2 ^ s + 1

/-- Round the exact magnitude `N * 2^-(1074+k)` to the nearest double, returned in
units of `2^-1074`: at most 53 significant bits are kept and nothing below one unit. -/
def roundMag (N k : Nat) : Nat :=
  rne N (max k (bitLen N - 53)) * 2 ^ (max k (bitLen N - 53) - k)

/-- Signed version of `roundMag`: rounding to nearest even is symmetric in the sign. -/
def roundInt (z : Int) (k : Nat) : Int :=
  match z with
  | Int.ofNat n => Int.ofNat (roundMag n k)
  | Int.negSucc n => - Int.ofNat (roundMag (n + 1) k)

/-- A JavaScript number: `NaN`, or a finite double given in units of `2^-1074`. -/
inductive JSNum where
  | nan : JSNum
  | fin (v : Int) : JSNum
  deriving DecidableEq, Repr

namespace JSNum

/-- The number denoted by an integer literal such as `255`. -/
def ofNat (n : Nat) : JSNum := fin (Int.ofNat (n * scale))

/-- JavaScript `a + b`. -/
def add : JSNum → JSNum → JSNum
  | fin a, fin b => fin (roundInt (a + b) 0)
  | _, _ => nan

/-- JavaScript `a - b`. -/
def sub : JSNum → JSNum → JSNum
  | fin a, fin b => fin (roundInt (a - b) 0)
  | _, _ => nan

/-- JavaScript `a * b`: the exact product has `2^-2148` as its unit. -/
def mul : JSNum → JSNum → JSNum
  | fin a, fin b => fin (roundInt (a * b) 1074)
  | _, _ => nan

/-- JavaScript `Math.floor(a)`. -/
def floor : JSNum → JSNum
  | fin a => fin (a / (scale : Int) * (scale : Int))
  | nan => nan

end JSNum

/-- The double nearest to 0.34 (`0x1.5c28f5c28f5c3p-2`), in units of `2^-1074`. -/
@[irreducible] def c034 : Nat := 6124895493223875 * 2 ^ 1020

/-- The double 0.5, in units of `2^-1074`. -/
@[irreducible] def c05 : Nat := 2 ^ 1073

/-- The double nearest to 0.16 (`0x1.47ae147ae147bp-3`), in units of `2^-1074`. -/
@[irreducible] def c016 : Nat := 5764607523034235 * 2 ^ 1019

/-- The number denoted by the literal `0.34`. -/
def lit034 : JSNum := JSNum.fin (Int.ofNat c034)

/-- The number denoted by the literal `0.5`. -/
def lit05 : JSNum := JSNum.fin (Int.ofNat c05)

/-- The number denoted by the literal `0.16`. -/
def lit016 : JSNum := JSNum.fin (Int.ofNat c016)

/-! ## The pixel buffer (`Uint8ClampedArray`) -/

/-- Reading `data[i]` as a number: an index past the end gives `undefined`, which is `NaN`
in arithmetic. -/
def toNumber : Option Nat → JSNum
  | some n => JSNum.ofNat n
  | none => JSNum.nan

/-- Conversion performed by a store into a `Uint8ClampedArray` (ECMAScript `ToUint8Clamp`):
`NaN` becomes 0, the value is clamped to `[0, 255]` and rounded to the nearest integer,
ties to even. -/
def toUint8Clamp : JSNum → Nat
  | JSNum.nan => 0
  | JSNum.fin v =>
    if v ≤ 0 then 0
    else if 255 * (scale : Int) ≤ v then 255
    else if 2 * (v.toNat % scale) < scale then v.toNat / scale
    else if scale < 2 * (v.toNat % scale) then v.toNat / scale + 1
    else if (v.toNat / scale) % 2 = 0 then v.toNat / scale else v.toNat / scale + 1

/-- Assignment `data[i] = x`: a store past the end of a typed array is ignored. -/
def store (d : List Nat) (i : Nat) (x : JSNum) : List Nat :=
  d.set i (toUint8Clamp x)

/-- The statement `for (let i = 0; i < data.length; i += 4) body`, started at `i`.
The result is `none` when `fuel` iterations do not reach the end of the buffer. -/
def forEachPixel (body : Nat → List Nat → List Nat) : Nat → Nat → List Nat → Option (List Nat)
  | 0, i, d => if i < d.length then none else some d
  | fuel + 1, i, d =>
    if i < d.length then forEachPixel body fuel (i + 4) (body i d) else some d

/-- Loop body of `invert` (Main.js lines 116-119). -/
def invertBody (i : Nat) (d : List Nat) : List Nat :=
  let d1 := store d i (JSNum.sub (JSNum.ofNat 255) (toNumber d[i]?))
  let d2 := store d1 (i + 1) (JSNum.sub (JSNum.ofNat 255) (toNumber d1[i + 1]?))
  let d3 := store d2 (i + 2) (JSNum.sub (JSNum.ofNat 255) (toNumber d2[i + 2]?))
  store d3 (i + 3) (JSNum.ofNat 255)

/-- Pixel loop of `invert` (Main.js lines 115-120) on the buffer `imgData.data`. -/
def invertPixels (d : List Nat) : Option (List Nat) :=
  forEachPixel invertBody d.length 0 d

/-- The expression `0.34 * x + 0.5 * y + 0.16 * z` (multiplications first, sums left to right). -/
def luminance (x y z : JSNum) : JSNum :=
  JSNum.add (JSNum.add (JSNum.mul lit034 x) (JSNum.mul lit05 y)) (JSNum.mul lit016 z)

/-- The luminance expression `0.34 * data[i] + 0.5 * data[i + 1] + 0.16 * data[i + 2]`. -/
def brightness (d : List Nat) (i : Nat) : JSNum :=
  luminance (toNumber d[i]?) (toNumber d[i + 1]?) (toNumber d[i + 2]?)

/-- The channel value stored by `data[i] = brightness` for a pixel with channels `r`, `g`, `b`. -/
def storedLuminance (r g b : Nat) : Nat :=
  toUint8Clamp (luminance (JSNum.ofNat r) (JSNum.ofNat g) (JSNum.ofNat b))

/-- Loop body of `greyscale` (Main.js lines 145-148). -/
def greyscaleBody (i : Nat) (d : List Nat) : List Nat :=
  let brightness := brightness d i
  let d1 := store d i brightness
  let d2 := store d1 (i + 1) brightness
  store d2 (i + 2) brightness

/-- Pixel loop of `greyscale` (Main.js lines 144-149). -/
def greyscalePixels (d : List Nat) : Option (List Nat) :=
  forEachPixel greyscaleBody d.length 0 d

/-- The channel value stored by `data[i] = brightness + c` for a pixel with channels
`r`, `g`, `b`. -/
def storedLuminancePlus (c r g b : Nat) : Nat :=
  toUint8Clamp
    (JSNum.add (luminance (JSNum.ofNat r) (JSNum.ofNat g) (JSNum.ofNat b)) (JSNum.ofNat c))

/-- Loop body of `sepia` (Main.js lines 174-177). -/
def sepiaBody (i : Nat) (d : List Nat) : List Nat :=
  let brightness := brightness d i
  let d1 := store d i (JSNum.add brightness (JSNum.ofNat 100))
  let d2 := store d1 (i + 1) (JSNum.add brightness (JSNum.ofNat 50))
  store d2 (i + 2) brightness

/-- Pixel loop of `sepia` (Main.js lines 173-178). -/
def sepiaPixels (d : List Nat) : Option (List Nat) :=
  forEachPixel sepiaBody d.length 0 d

/-- The four channels of pixel number `p` of a buffer, when it has them all. -/
def pixelAt (d : List Nat) (p : Nat) : Option (Nat × Nat × Nat × Nat) :=
  match d[4 * p]?, d[4 * p + 1]?, d[4 * p + 2]?, d[4 * p + 3]? with
  | some r, some g, some b, some a => some (r, g, b, a)
  | _, _, _, _ => none


/-! ## Values, errors and the external collaborators -/

/-- The JavaScript values an image argument can be. -/
inductive JSValue where
  | undefined : JSValue
  | null : JSValue
  | bool (b : Bool) : JSValue
  | number (x : JSNum) : JSValue
  | string (s : String) : JSValue
  | buffer (bytes : List Nat) : JSValue
  deriving DecidableEq

/-- JavaScript truthiness (`ToBoolean`): `!v` is true exactly when this is false. -/
def truthy : JSValue → Bool
  | JSValue.undefined => false
  | JSValue.null => false
  | JSValue.bool b => b
  | JSValue.number JSNum.nan => false
  | JSValue.number (JSNum.fin v) => v != 0
  | JSValue.string s => s != ""
  | JSValue.buffer _ => true

/-- The JavaScript operator `typeof`. -/
def typeOf : JSValue → String
  | JSValue.undefined => "undefined"
  | JSValue.null => "object"
  | JSValue.bool _ => "boolean"
  | JSValue.number _ => "number"
  | JSValue.string _ => "string"
  | JSValue.buffer _ => "object"

/-- An instance of `CanvaError` (lib/Error.js): the two fields set by the constructor. -/
structure CanvaError where
  message : String
  name : String
  deriving DecidableEq

/-- Constructor of `CanvaError` (Error.js lines 8-23): an omitted `name` is `"CanvaError"`. -/
def CanvaError.new (error : String) (name : Option String) : CanvaError :=
  { message := error, name := name.getD "CanvaError" }

/-- Whatever a call can throw. -/
inductive Thrown where
  | canvaError (e : CanvaError) : Thrown
  | referenceError (message : String) : Thrown
  | typeError (message : String) : Thrown
  | assetFailure (name : String) : Thrown
  | decodeFailure (source : JSValue) : Thrown
  deriving DecidableEq

/-- The statement `throw new Error(...)` of the guards (Main.js lines 25, 107, 136, 165):
`Error` is the module's `CanvaError`, called with the message only. -/
def expectedImageSource (image : JSValue) : Thrown :=
  Thrown.canvaError (CanvaError.new ("Expected ImageSource, received " ++ typeOf image ++ "!") none)

/-- A decoded image: its size and the RGBA buffer `getImageData` returns once the image
has been drawn at the origin of a blank canvas of that size. -/
structure Image where
  width : Nat
  height : Nat
  pixels : List Nat
  deriving DecidableEq

/-- A call made to a collaborator, in the order made. -/
inductive Call where
  | loadBuffer (name : String) : Call
  | loadImage (source : JSValue) : Call
  deriving DecidableEq

/-- The collaborators: the asset store read by `loader.loadBuffer` (lib/Loader.js), the
decoder behind `Canvas.loadImage`, and the successive results of `Math.random()`. -/
structure World where
  readAsset : String → Option (List Nat)
  decode : JSValue → Option Image
  random : Nat → JSNum

/-- Result of a call: the collaborator calls made, and the value returned or thrown. -/
structure Outcome (α : Type) where
  calls : List Call
  result : Except Thrown α

/-- The raster a canvas holds when `canvas.toBuffer()` encodes it. -/
structure Raster where
  width : Nat
  height : Nat
  data : List Nat
  deriving DecidableEq

/-- The body shared by `invert`, `greyscale` and `sepia` (Main.js lines 106-125, 135-154,
164-183): guard, decode, draw on a canvas of the image's size, read the buffer, run the
pixel loop, write the buffer back and encode.  The result is `none` when the pixel loop
does not finish. -/
def staticTransform (pixelLoop : List Nat → Option (List Nat)) (w : World) (img : JSValue) :
    Option (Outcome Raster) :=
  if truthy img = false then
    some { calls := [], result := Except.error (expectedImageSource img) }
  else
    match w.decode img with
    | none =>
      some { calls := [Call.loadImage img], result := Except.error (Thrown.decodeFailure img) }
    | some image =>
      match pixelLoop image.pixels with
      | none => none
      | some out =>
        some { calls := [Call.loadImage img],
               result := Except.ok { width := image.width, height := image.height, data := out } }

/-- The method `Canvacord.invert` (Main.js lines 106-125). -/
def invert (w : World) (img : JSValue) : Option (Outcome Raster) :=
  staticTransform invertPixels w img

/-- The method `Canvacord.greyscale` (Main.js lines 135-154). -/
def greyscale (w : World) (img : JSValue) : Option (Outcome Raster) :=
  staticTransform greyscalePixels w img

/-- The method `Canvacord.sepia` (Main.js lines 164-183). -/
def sepia (w : World) (img : JSValue) : Option (Outcome Raster) :=
  staticTransform sepiaPixels w img

/-! ## Canvas and GIF encoder -/

/-- A drawing command applied to a canvas. -/
inductive DrawOp where
  | clearRect (x y w h : Nat) : DrawOp
  | drawImage (image : Image) (x y : JSNum) (w h : Nat) : DrawOp
  | fillRect (style : String) (x y w h : Nat) : DrawOp
  deriving DecidableEq

/-- A canvas with its 2d context: size, current `fillStyle`, and the drawing commands that
make up its content. -/
structure Canvas where
  width : Nat
  height : Nat
  fillStyle : String
  content : List DrawOp
  deriving DecidableEq

/-- Call `Canvas.createCanvas(width, height)`: blank, with the default fill style. -/
def Canvas.create (width height : Nat) : Canvas :=
  { width := width, height := height, fillStyle := "#000000", content := [] }

/-- Call `ctx.clearRect(x, y, w, h)`: clearing the whole canvas leaves it blank. -/
def Canvas.clearRect (c : Canvas) (x y w h : Nat) : Canvas :=
  if x = 0 ∧ y = 0 ∧ c.width ≤ w ∧ c.height ≤ h then { c with content := [] }
  else { c with content := c.content ++ [DrawOp.clearRect x y w h] }

/-- Call `ctx.drawImage(image, x, y, w, h)`. -/
def Canvas.drawImage (c : Canvas) (image : Image) (x y : JSNum) (w h : Nat) : Canvas :=
  { c with content := c.content ++ [DrawOp.drawImage image x y w h] }

/-- Assignment `ctx.fillStyle = style`. -/
def Canvas.setFillStyle (c : Canvas) (style : String) : Canvas :=
  { c with fillStyle := style }

/-- Call `ctx.fillRect(x, y, w, h)` with the current fill style. -/
def Canvas.fillRect (c : Canvas) (x y w h : Nat) : Canvas :=
  { c with content := c.content ++ [DrawOp.fillRect c.fillStyle x y w h] }

/-- One frame of a GIF: the canvas as it was when `addFrame` was called. -/
structure Frame where
  width : Nat
  height : Nat
  content : List DrawOp
  deriving DecidableEq

/-- A `GIFEncoder`: the size it was created with, what `start`, `setRepeat`, `setDelay`
and `finish` recorded, and the frames added so far. -/
structure GIFEncoder where
  width : Nat
  height : Nat
  started : Bool
  repeatCount : Option Nat
  delay : Option Nat
  frames : List Frame
  finished : Bool
  deriving DecidableEq

/-- Expression `new GIFEncoder(width, height)`. -/
def GIFEncoder.new (width height : Nat) : GIFEncoder :=
  { width := width, height := height, started := false, repeatCount := none, delay := none,
    frames := [], finished := false }

/-- Call `encoder.start()`. -/
def GIFEncoder.start (e : GIFEncoder) : GIFEncoder := { e with started := true }

/-- Call `encoder.setRepeat(n)`: 0 means repeat forever. -/
def GIFEncoder.setRepeat (e : GIFEncoder) (n : Nat) : GIFEncoder := { e with repeatCount := some n }

/-- Call `encoder.setDelay(ms)`. -/
def GIFEncoder.setDelay (e : GIFEncoder) (ms : Nat) : GIFEncoder := { e with delay := some ms }

/-- Call `encoder.addFrame(ctx)`: the current canvas becomes the next frame. -/
def GIFEncoder.addFrame (e : GIFEncoder) (c : Canvas) : GIFEncoder :=
  { e with frames := e.frames ++ [{ width := c.width, height := c.height, content := c.content }] }

/-- Call `encoder.finish()`. -/
def GIFEncoder.finish (e : GIFEncoder) : GIFEncoder := { e with finished := true }

/-- Expression `encoder.out.getData()`: the bytes are those of the encoder's stream, stood
for by the encoder that wrote them. -/
def GIFEncoder.getData (e : GIFEncoder) : GIFEncoder := e

/-! ## trigger -/

/-- The expression `Math.floor(Math.random() * n) - n` with `u` the result of `Math.random()`. -/
def jitter (u : JSNum) (n : Nat) : JSNum :=
  JSNum.sub (JSNum.floor (JSNum.mul u (JSNum.ofNat n))) (JSNum.ofNat n)

/-- The expression `310 - 54 + Math.floor(Math.random() * n) - n`. -/
def jitterBottom (u : JSNum) (n : Nat) : JSNum :=
  JSNum.sub
    (JSNum.add (JSNum.sub (JSNum.ofNat 310) (JSNum.ofNat 54))
      (JSNum.floor (JSNum.mul u (JSNum.ofNat n))))
    (JSNum.ofNat n)

/-- A possible result of `Math.random()`: a double `u` with `0 ≤ u < 1`. -/
def isRandomValue : JSNum → Bool
  | JSNum.nan => false
  | JSNum.fin v => decide (0 ≤ v) && decide (v < (scale : Int)) && decide (roundInt v 0 = v)

/-- Variables of the loop of `trigger`: the counter `i`, the canvas, the encoder `GIF`, and
how many results of `Math.random()` have been used. -/
structure TriggerState where
  i : Nat
  ctx : Canvas
  gif : GIFEncoder
  used : Nat

/-- One pass through the body of the `while` loop of `trigger` (Main.js lines 38-56),
with `BR = 20` and `LR = 10`. -/
def triggerBody (w : World) (img base : Image) (s : TriggerState) : TriggerState :=
  let c1 := s.ctx.clearRect 0 0 256 310
  let c2 := c1.drawImage img (jitter (w.random s.used) 20) (jitter (w.random (s.used + 1)) 20)
    (256 + 20) (310 - 54 + 20)
  let c3 := c2.setFillStyle "#FF000033"
  let c4 := c3.fillRect 0 0 256 310
  let c5 := c4.drawImage base (jitter (w.random (s.used + 2)) 10)
    (jitterBottom (w.random (s.used + 3)) 10) (256 + 10) (54 + 10)
  { i := s.i + 1, ctx := c5, gif := s.gif.addFrame c5, used := s.used + 4 }

/-- Frame number `k` of `trigger` written out: what `triggerBody` draws in pass `k`, which
uses the results `4k` to `4k + 3` of `Math.random()`. -/
def triggerFrame (w : World) (img base : Image) (k : Nat) : Frame :=
  { width := 256, height := 310,
    content :=
      [DrawOp.drawImage img (jitter (w.random (4 * k)) 20) (jitter (w.random (4 * k + 1)) 20)
         276 276,
       DrawOp.fillRect "#FF000033" 0 0 256 310,
       DrawOp.drawImage base (jitter (w.random (4 * k + 2)) 10)
         (jitterBottom (w.random (4 * k + 3)) 10) 266 64] }

/-- The loop `while (i < 9) body` of `trigger`; `none` when `fuel` passes do not end it. -/
def triggerLoop (w : World) (img base : Image) : Nat → TriggerState → Option TriggerState
  | 0, s => if s.i < 9 then none else some s
  | fuel + 1, s => if s.i < 9 then triggerLoop w img base fuel (triggerBody w img base s) else some s

/-- The method `Canvacord.trigger` (Main.js lines 24-60); `none` when the loop does not end
within `fuel` passes. -/
def trigger (fuel : Nat) (w : World) (image : JSValue) : Option (Outcome GIFEncoder) :=
  if truthy image = false then
    some { calls := [], result := Except.error (expectedImageSource image) }
  else
    match w.readAsset "triggered" with
    | none =>
      some { calls := [Call.loadBuffer "triggered"],
             result := Except.error (Thrown.assetFailure "triggered") }
    | some bytes =>
      match w.decode (JSValue.buffer bytes) with
      | none =>
        some { calls := [Call.loadBuffer "triggered", Call.loadImage (JSValue.buffer bytes)],
               result := Except.error (Thrown.decodeFailure (JSValue.buffer bytes)) }
      | some base =>
        match w.decode image with
        | none =>
          some { calls := [Call.loadBuffer "triggered", Call.loadImage (JSValue.buffer bytes),
                   Call.loadImage image],
                 result := Except.error (Thrown.decodeFailure image) }
        | some img =>
          let gif := (((GIFEncoder.new 256 310).start).setRepeat 0).setDelay 15
          let canvas := Canvas.create 256 310
          match triggerLoop w img base fuel { i := 0, ctx := canvas, gif := gif, used := 0 } with
          | none => none
          | some s =>
            some { calls := [Call.loadBuffer "triggered", Call.loadImage (JSValue.buffer bytes),
                     Call.loadImage image],
                   result := Except.ok (s.gif.finish).getData }

/-! ## rgb -/

/-- The argument of `rgb`: the fields the method reads. -/
structure RGBArgs where
  color : List String
  width : Nat
  height : Nat
  delay : Nat
  deriving DecidableEq

/-- What a name of the body of `rgb` is bound to. -/
inductive Binding where
  | moduleValue : Binding
  | args : Binding
  | encoder : Binding
  | canvas : Binding
  | ctx : Binding
  deriving DecidableEq

/-- The names in scope in the body of `rgb`: the five module constants and the class
(Main.js lines 1-7), the parameter and the three locals (lines 79-86).  The loop variable
is out of scope after the loop, and `GIF` is a local of `trigger` only. -/
def rgbScope : List (String × Binding) :=
  [("Canvas", Binding.moduleValue), ("GIFEncoder", Binding.moduleValue),
   ("Error", Binding.moduleValue), ("loader", Binding.moduleValue),
   ("Constants", Binding.moduleValue), ("Canvacord", Binding.moduleValue),
   ("args", Binding.args), ("encoder", Binding.encoder), ("canvas", Binding.canvas),
   ("ctx", Binding.ctx)]

/-- Variables of the loop of `rgb`. -/
structure RgbState where
  i : Nat
  ctx : Canvas
  encoder : GIFEncoder

/-- One pass through the body of the `for` loop of `rgb` (Main.js lines 89-91) with
`args.color[i]` equal to `color`. -/
def rgbBody (color : String) (s : RgbState) : RgbState :=
  let c1 := s.ctx.setFillStyle color
  let c2 := c1.fillRect 0 0 c1.width c1.height
  { i := s.i + 1, ctx := c2, encoder := s.encoder.addFrame c2 }

/-- The loop `for (let i = 0; i < args.color.length; i++) body` of `rgb`; `none` when
`fuel` passes do not end it. -/
def rgbLoop (args : RGBArgs) : Nat → RgbState → Option RgbState
  | 0, s => if s.i < args.color.length then none else some s
  | fuel + 1, s =>
    if h : s.i < args.color.length then rgbLoop args fuel (rgbBody args.color[s.i] s)
    else some s

/-- What `rgb` leaves behind: the encoder as it stands when the call ends, and the value
returned or thrown. -/
structure RgbRun where
  encoder : GIFEncoder
  result : Except Thrown GIFEncoder

/-- The statements `GIF.finish(); return GIF.out.getData();` (Main.js lines 94-95) in the
scope of `rgb`: the name `GIF` is looked up first. -/
def rgbFinish (encoder : GIFEncoder) : RgbRun :=
  match rgbScope.lookup "GIF" with
  | none => { encoder := encoder, result := Except.error (Thrown.referenceError "GIF is not defined") }
  | some Binding.encoder =>
    { encoder := encoder.finish, result := Except.ok (encoder.finish).getData }
  | some _ =>
    { encoder := encoder, result := Except.error (Thrown.typeError "GIF.finish is not a function") }

/-- The method `Canvacord.rgb` (Main.js lines 79-96).  `defaults` is `Constants.RGBArgs`
(lib/Constants.js), used when the argument is omitted; `none` when the loop does not end. -/
def rgb (defaults : RGBArgs) (argument : Option RGBArgs) : Option RgbRun :=
  let args := argument.getD defaults
  let encoder := (((GIFEncoder.new args.width args.height).start).setRepeat 0).setDelay args.delay
  let canvas := Canvas.create args.width args.height
  match rgbLoop args args.color.length { i := 0, ctx := canvas, encoder := encoder } with
  | none => none
  | some s => some (rgbFinish s.encoder)

/-! ## A concrete world -/

/-- A world in which the asset exists, every source decodes to one pixel, and every call
of `Math.random()` returns 0.5; used to instantiate the theorems. -/
def sampleWorld : World :=
  { readAsset := fun _ => some [137, 80, 78, 71],
    decode := fun _ => some { width := 1, height := 1, pixels := [10, 20, 30, 40] },
    random := fun _ => lit05 }

/-! ## Facts about rounding -/

theorem upperExp_spec (fuel : Nat) : ∀ k n : Nat, n < 2 ^ (k * 2 ^ fuel) → n < 2 ^ upperExp fuel k n := by
  induction fuel with
  | zero => intro k n h; simpa [upperExp] using h
  | succ f ih =>
    intro k n h
    unfold upperExp
    split_ifs with hk
    · exact hk
    · apply ih
      have : 2 * k * 2 ^ f = k * 2 ^ (f + 1) := by ring
      rw [this]; exact h

theorem bisectExp_spec (fuel : Nat) : ∀ lo hi n : Nat, 2 ^ lo ≤ n → n < 2 ^ hi → hi ≤ lo + fuel + 1 →
    2 ^ (bisectExp fuel lo hi n - 1) ≤ n ∧ n < 2 ^ bisectExp fuel lo hi n ∧ 1 ≤ bisectExp fuel lo hi n := by
  induction fuel with
  | zero =>
    intro lo hi n h1 h2 h3
    have hlt : lo < hi := (Nat.pow_lt_pow_iff_right (by norm_num)).1 (lt_of_le_of_lt h1 h2)
    have : hi = lo + 1 := by omega
    subst this
    simp only [bisectExp]
    exact ⟨by simpa using h1, h2, by omega⟩
  | succ f ih =>
    intro lo hi n h1 h2 h3
    have hlt : lo < hi := (Nat.pow_lt_pow_iff_right (by norm_num)).1 (lt_of_le_of_lt h1 h2)
    unfold bisectExp
    split_ifs with ha hb
    · have : hi = lo + 1 := by omega
      subst this
      exact ⟨by simpa using h1, h2, by omega⟩
    · exact ih lo ((lo + hi) / 2) n h1 hb (by omega)
    · exact ih ((lo + hi) / 2) hi n (by omega) h2 (by omega)

theorem bitLen_zero : bitLen 0 = 0 := by simp [bitLen]

theorem bitLen_spec (n : Nat) (hn : n ≠ 0) :
    2 ^ (bitLen n - 1) ≤ n ∧ n < 2 ^ bitLen n ∧ 1 ≤ bitLen n := by
  have hup : n < 2 ^ upperExp n 1 n := by
    apply upperExp_spec
    have h1 : n < 2 ^ n := Nat.lt_two_pow n
    have h2 : 2 ^ n ≤ 2 ^ (1 * 2 ^ n) := Nat.pow_le_pow_right (by norm_num) (by omega)
    omega
  unfold bitLen
  rw [if_neg hn]
  apply bisectExp_spec
  · simpa using Nat.pos_of_ne_zero hn
  · exact hup
  · omega

theorem bitLen_le (n t : Nat) (h : n < 2 ^ t) : bitLen n ≤ t := by
  by_cases hn : n = 0
  · subst hn; simp [bitLen_zero]
  · obtain ⟨h1, _, h3⟩ := bitLen_spec n hn
    have : bitLen n - 1 < t := (Nat.pow_lt_pow_iff_right (by norm_num)).1 (lt_of_le_of_lt h1 h)
    omega

theorem le_bitLen (n t : Nat) (h : 2 ^ t ≤ n) : t + 1 ≤ bitLen n := by
  have hn : n ≠ 0 := by
    have := Nat.two_pow_pos t
    omega
  obtain ⟨_, h2, _⟩ := bitLen_spec n hn
  have : t < bitLen n := (Nat.pow_lt_pow_iff_right (by norm_num)).1 (lt_of_le_of_lt h h2)
  omega

theorem bitLen_mul_pow (m k : Nat) (hm : m ≠ 0) : bitLen (m * 2 ^ k) = bitLen m + k := by
  obtain ⟨h1, h2, h3⟩ := bitLen_spec m hm
  have hk : 0 < 2 ^ k := Nat.two_pow_pos k
  apply le_antisymm
  · apply bitLen_le
    rw [pow_add]
    exact Nat.mul_lt_mul_of_pos_right h2 hk
  · have : 2 ^ (bitLen m - 1 + k) ≤ m * 2 ^ k := by
      rw [pow_add]; exact Nat.mul_le_mul_right _ h1
    have := le_bitLen _ _ this
    omega

theorem rne_mul_err (N s : Nat) :
    2 * (rne N s * 2 ^ s) ≤ 2 * N + 2 ^ s ∧ 2 * N ≤ 2 * (rne N s * 2 ^ s) + 2 ^ s := by
  have hN : N / 2 ^ s * 2 ^ s + N % 2 ^ s = N := Nat.div_add_mod' N (2 ^ s)
  have hr : N % 2 ^ s < 2 ^ s := Nat.mod_lt _ (Nat.two_pow_pos s)
  unfold rne
  split_ifs <;> (try simp only [add_mul, one_mul]) <;> omega

theorem rne_exact (N s : Nat) (h : 2 ^ s ∣ N) : rne N s * 2 ^ s = N := by
  have hr : N % 2 ^ s = 0 := Nat.mod_eq_zero_of_dvd h
  have hp : 0 < 2 ^ s := Nat.two_pow_pos s
  unfold rne
  rw [hr, if_pos (by omega)]
  exact Nat.div_mul_cancel h

theorem rne_mul_pow (M s k : Nat) : rne (M * 2 ^ k) (k + s) = rne M s := by
  have hk : 0 < 2 ^ k := Nat.two_pow_pos k
  have hdiv : M * 2 ^ k / 2 ^ (k + s) = M / 2 ^ s := by
    rw [pow_add, mul_comm (2 ^ k) (2 ^ s)]
    exact Nat.mul_div_mul_right _ _ hk
  have hmod : M * 2 ^ k % 2 ^ (k + s) = M % 2 ^ s * 2 ^ k := by
    rw [pow_add, mul_comm (2 ^ k) (2 ^ s)]
    exact Nat.mul_mod_mul_right _ _ _
  have hpow : 2 ^ (k + s) = 2 ^ s * 2 ^ k := by rw [pow_add, mul_comm]
  unfold rne
  rw [hdiv, hmod, hpow]
  have e1 : 2 * (M % 2 ^ s * 2 ^ k) < 2 ^ s * 2 ^ k ↔ 2 * (M % 2 ^ s) < 2 ^ s := by
    rw [← mul_assoc]; exact Nat.mul_lt_mul_right hk
  have e2 : 2 ^ s * 2 ^ k < 2 * (M % 2 ^ s * 2 ^ k) ↔ 2 ^ s < 2 * (M % 2 ^ s) := by
    rw [← mul_assoc]; exact Nat.mul_lt_mul_right hk
  simp only [e1, e2]

theorem roundMag_zero (N : Nat) :
    roundMag N 0 = rne N (bitLen N - 53) * 2 ^ (bitLen N - 53) := by
  simp [roundMag]

theorem roundMag_err (N t : Nat) (h : N < 2 ^ (53 + t)) :
    2 * roundMag N 0 ≤ 2 * N + 2 ^ t ∧ 2 * N ≤ 2 * roundMag N 0 + 2 ^ t := by
  have hs : bitLen N - 53 ≤ t := by have := bitLen_le N _ h; omega
  have hp : 2 ^ (bitLen N - 53) ≤ 2 ^ t := Nat.pow_le_pow_right (by norm_num) hs
  have := rne_mul_err N (bitLen N - 53)
  rw [roundMag_zero]
  omega

theorem roundMag_exact (N t : Nat) (h : N < 2 ^ (53 + t)) (hd : 2 ^ t ∣ N) : roundMag N 0 = N := by
  have hs : bitLen N - 53 ≤ t := by have := bitLen_le N _ h; omega
  rw [roundMag_zero]
  exact rne_exact N _ (dvd_trans (pow_dvd_pow 2 hs) hd)

theorem roundMag_dvd (N : Nat) : 2 ^ (bitLen N - 53) ∣ roundMag N 0 := by
  rw [roundMag_zero]; exact Dvd.intro_left _ rfl

theorem roundMag_mul_pow (M k : Nat) : roundMag (M * 2 ^ k) k = roundMag M 0 := by
  by_cases hM : M = 0
  · subst hM; simp [roundMag, rne, bitLen_zero]
  · have hs : max k (bitLen (M * 2 ^ k) - 53) = k + (bitLen M - 53) := by
      rw [bitLen_mul_pow M k hM]; omega
    rw [roundMag_zero]
    unfold roundMag
    rw [hs, rne_mul_pow]
    simp


/-! ## Facts about numbers stored in the buffer -/

theorem scale_eq : scale = 2 ^ 1074 := by rw [scale]

theorem scale_pos : 0 < scale := by rw [scale_eq]; positivity

theorem roundMag_ofNat (k : Nat) (hk : k < 2 ^ 53) : roundMag (k * scale) 0 = k * scale := by
  apply roundMag_exact _ 1074
  · rw [pow_add, ← scale_eq]; exact Nat.mul_lt_mul_of_pos_right hk scale_pos
  · rw [← scale_eq]; exact Dvd.intro_left _ rfl

theorem sub_ofNat (a b : Nat) (hb : b ≤ a) (ha : a < 2 ^ 53) :
    JSNum.sub (JSNum.ofNat a) (JSNum.ofNat b) = JSNum.ofNat (a - b) := by
  have h : (Int.ofNat (a * scale) - Int.ofNat (b * scale)) = Int.ofNat ((a - b) * scale) := by
    simp only [Int.ofNat_eq_coe]
    rw [Nat.sub_mul]
    have : b * scale ≤ a * scale := Nat.mul_le_mul_right _ hb
    omega
  simp only [JSNum.sub, JSNum.ofNat, h, roundInt]
  rw [roundMag_ofNat _ (by omega)]

theorem toUint8Clamp_ofNat (k : Nat) (hk : k ≤ 255) : toUint8Clamp (JSNum.ofNat k) = k := by
  have hs := scale_pos
  simp only [toUint8Clamp, JSNum.ofNat, Int.ofNat_eq_coe, Int.toNat_ofNat]
  have hmod : k * scale % scale = 0 := Nat.mul_mod_left k scale
  have hdiv : k * scale / scale = k := Nat.mul_div_cancel k hs
  rw [hmod, hdiv]
  by_cases h0 : k = 0
  · subst h0; simp
  · have hpos : 0 < k * scale := Nat.mul_pos (Nat.pos_of_ne_zero h0) hs
    rw [if_neg (by push_cast at *; omega)]
    by_cases h255 : k = 255
    · subst h255; simp
    · have hlt : k * scale < 255 * scale := Nat.mul_lt_mul_of_pos_right (by omega) hs
      rw [if_neg (by push_cast at *; omega), if_pos (by omega)]

/-! ## The pixel loop -/

theorem forEachPixel_spec (body : Nat → List Nat → List Nat)
    (hlen : ∀ i d, (body i d).length = d.length)
    (hframe : ∀ i d j, (j < i ∨ i + 4 ≤ j) → (body i d)[j]? = d[j]?)
    (hlocal : ∀ i d e, d.length = e.length → (∀ t, t < 4 → d[i + t]? = e[i + t]?) →
      ∀ t, t < 4 → (body i d)[i + t]? = (body i e)[i + t]?)
    (d0 : List Nat) (fuel : Nat) :
    ∀ i d, d.length = d0.length → (∀ j, i ≤ j → d[j]? = d0[j]?) → d0.length ≤ i + 4 * fuel →
      ∃ out, forEachPixel body fuel i d = some out ∧ out.length = d0.length ∧
        (∀ j, j < i → out[j]? = d[j]?) ∧
        (∀ m t, t < 4 → i + 4 * m < d0.length →
          out[i + 4 * m + t]? = (body (i + 4 * m) d0)[i + 4 * m + t]?) := by
  induction fuel with
  | zero =>
    intro i d hl _ hb
    refine ⟨d, ?_, hl, fun _ _ => rfl, ?_⟩
    · simp only [forEachPixel]; rw [if_neg (by omega)]
    · intro m t _ hm; omega
  | succ f ih =>
    intro i d hl hd hb
    unfold forEachPixel
    by_cases hi : i < d.length
    · rw [if_pos hi]
      obtain ⟨out, ho, hol, hlow, hpix⟩ := ih (i + 4) (body i d) (by rw [hlen, hl])
        (fun j hj => by rw [hframe i d j (Or.inr hj)]; exact hd j (by omega)) (by omega)
      refine ⟨out, ho, hol, ?_, ?_⟩
      · intro j hj
        rw [hlow j (by omega), hframe i d j (Or.inl hj)]
      · intro m t ht hm
        cases m with
        | zero =>
          simp only [Nat.mul_zero, Nat.add_zero]
          rw [hlow (i + t) (by omega)]
          exact hlocal i d d0 hl (fun s _ => hd (i + s) (by omega)) t ht
        | succ m =>
          have e : i + 4 * (m + 1) = i + 4 + 4 * m := by ring
          rw [e] at hm ⊢
          exact hpix m t ht hm
    · rw [if_neg hi]
      refine ⟨d, rfl, hl, fun _ _ => rfl, ?_⟩
      intro m t _ hm; omega


/-! ## invert -/

theorem store_length (d : List Nat) (i : Nat) (x : JSNum) : (store d i x).length = d.length := by
  simp [store]

theorem store_get (d : List Nat) (i j : Nat) (x : JSNum) :
    (store d i x)[j]? = if i = j then (d[j]?).map (fun _ => toUint8Clamp x) else d[j]? := by
  unfold store
  rw [List.getElem?_set]
  by_cases h : i = j
  · subst h
    by_cases hl : i < d.length
    · simp [hl]
    · simp [hl, List.getElem?_eq_none (Nat.le_of_not_lt hl)]
  · simp [h]

theorem invertBody_length (i : Nat) (d : List Nat) : (invertBody i d).length = d.length := by
  simp [invertBody, store_length]

theorem invertBody_get (i : Nat) (d : List Nat) (j : Nat) :
    (invertBody i d)[j]? =
      if j = i ∨ j = i + 1 ∨ j = i + 2 then
        (d[j]?).map (fun x => toUint8Clamp (JSNum.sub (JSNum.ofNat 255) (JSNum.ofNat x)))
      else if j = i + 3 then (d[j]?).map (fun _ => 255)
      else d[j]? := by
  have h255 : toUint8Clamp (JSNum.ofNat 255) = 255 := toUint8Clamp_ofNat 255 (by omega)
  simp only [invertBody, store_get, h255]
  by_cases h0 : j = i
  · subst h0
    cases hd : d[j]? <;> simp [hd, toNumber]
  · by_cases h1 : j = i + 1
    · subst h1
      cases hd : d[i + 1]? <;> simp [hd, toNumber]
    · by_cases h2 : j = i + 2
      · subst h2
        cases hd : d[i + 2]? <;> simp [hd, toNumber]
      · by_cases h3 : j = i + 3
        · subst h3
          cases hd : d[i + 3]? <;> simp [hd]
        · have e0 : ¬ i = j := fun h => h0 h.symm
          have e1 : ¬ i + 1 = j := fun h => h1 h.symm
          have e2 : ¬ i + 2 = j := fun h => h2 h.symm
          have e3 : ¬ i + 3 = j := fun h => h3 h.symm
          simp [h0, h1, h2, h3, e0, e1, e2, e3]


theorem pixelLoop_spec (body : Nat → List Nat → List Nat)
    (hlen : ∀ i d, (body i d).length = d.length)
    (hframe : ∀ i d j, (j < i ∨ i + 4 ≤ j) → (body i d)[j]? = d[j]?)
    (hlocal : ∀ i d e, d.length = e.length → (∀ t, t < 4 → d[i + t]? = e[i + t]?) →
      ∀ t, t < 4 → (body i d)[i + t]? = (body i e)[i + t]?)
    (d : List Nat) :
    ∃ out, forEachPixel body d.length 0 d = some out ∧ out.length = d.length ∧
      ∀ p t, t < 4 → 4 * p < d.length → out[4 * p + t]? = (body (4 * p) d)[4 * p + t]? := by
  obtain ⟨out, h1, h2, _, h4⟩ :=
    forEachPixel_spec body hlen hframe hlocal d d.length 0 d rfl (fun _ _ => rfl) (by omega)
  refine ⟨out, h1, h2, ?_⟩
  intro p t ht hp
  have := h4 p t ht (by omega)
  simpa using this

theorem pixelAt_eq_some (d : List Nat) (p r g b a : Nat) :
    pixelAt d p = some (r, g, b, a) ↔
      d[4 * p]? = some r ∧ d[4 * p + 1]? = some g ∧ d[4 * p + 2]? = some b ∧
        d[4 * p + 3]? = some a := by
  unfold pixelAt
  split
  · next h0 h1 h2 h3 => simp [h0, h1, h2, h3]
  · next hne =>
    constructor
    · intro h; cases h
    · rintro ⟨h0, h1, h2, h3⟩
      exact (hne r g b a h0 h1 h2 h3).elim

theorem pixelAt_exists (d : List Nat) (hlen : d.length % 4 = 0) (p : Nat) (hp : 4 * p < d.length) :
    ∃ r g b a, pixelAt d p = some (r, g, b, a) := by
  have h0 : 4 * p < d.length := hp
  have h1 : 4 * p + 1 < d.length := by omega
  have h2 : 4 * p + 2 < d.length := by omega
  have h3 : 4 * p + 3 < d.length := by omega
  refine ⟨d[4 * p], d[4 * p + 1], d[4 * p + 2], d[4 * p + 3], ?_⟩
  rw [pixelAt_eq_some]
  exact ⟨List.getElem?_eq_getElem h0, List.getElem?_eq_getElem h1,
    List.getElem?_eq_getElem h2, List.getElem?_eq_getElem h3⟩

theorem invert_channel (x : Nat) (hx : x ≤ 255) :
    toUint8Clamp (JSNum.sub (JSNum.ofNat 255) (JSNum.ofNat x)) = 255 - x := by
  rw [sub_ofNat 255 x hx (by norm_num), toUint8Clamp_ofNat _ (by omega)]

theorem invertPixels_spec (d : List Nat) :
    ∃ out, invertPixels d = some out ∧ out.length = d.length ∧
      ∀ p t, t < 4 → 4 * p < d.length → out[4 * p + t]? = (invertBody (4 * p) d)[4 * p + t]? := by
  apply pixelLoop_spec invertBody invertBody_length
  · intro i d j hj
    rw [invertBody_get, if_neg (by omega), if_neg (by omega)]
  · intro i d e _ h t ht
    rw [invertBody_get, invertBody_get, h t ht]

theorem invertPixels_pixels (d : List Nat) (hlen : d.length % 4 = 0) (hch : ∀ x ∈ d, x ≤ 255) :
    ∃ out, invertPixels d = some out ∧ out.length = d.length ∧
      ∀ p, 4 * p < d.length → ∃ r g b a, pixelAt d p = some (r, g, b, a) ∧
        pixelAt out p = some (255 - r, 255 - g, 255 - b, 255) := by
  obtain ⟨out, h1, h2, h3⟩ := invertPixels_spec d
  refine ⟨out, h1, h2, ?_⟩
  intro p hp
  obtain ⟨r, g, b, a, hpx⟩ := pixelAt_exists d hlen p hp
  refine ⟨r, g, b, a, hpx, ?_⟩
  rw [pixelAt_eq_some] at hpx ⊢
  obtain ⟨e0, e1, e2, e3⟩ := hpx
  have hr : r ≤ 255 := hch r (List.getElem?_mem e0)
  have hg : g ≤ 255 := hch g (List.getElem?_mem e1)
  have hb : b ≤ 255 := hch b (List.getElem?_mem e2)
  have q0 := h3 p 0 (by omega) hp
  have q1 := h3 p 1 (by omega) hp
  have q2 := h3 p 2 (by omega) hp
  have q3 := h3 p 3 (by omega) hp
  rw [invertBody_get] at q0 q1 q2 q3
  simp only [Nat.add_zero] at q0
  refine ⟨?_, ?_, ?_, ?_⟩
  · simp [q0, e0, invert_channel r hr]
  · simp [q1, e1, invert_channel g hg]
  · simp [q2, e2, invert_channel b hb]
  · simp [q3, e3]


theorem channels_le_of_pixels (d : List Nat) (hlen : d.length % 4 = 0)
    (h : ∀ p, 4 * p < d.length → ∃ r g b a, pixelAt d p = some (r, g, b, a) ∧
      r ≤ 255 ∧ g ≤ 255 ∧ b ≤ 255 ∧ a ≤ 255) :
    ∀ x ∈ d, x ≤ 255 := by
  intro x hx
  obtain ⟨n, hn⟩ := List.mem_iff_getElem?.1 hx
  have hnl : n < d.length := by
    by_contra hc
    rw [List.getElem?_eq_none (Nat.le_of_not_lt hc)] at hn
    cases hn
  obtain ⟨r, g, b, a, hpx, hr, hg, hb, ha⟩ := h (n / 4) (by omega)
  rw [pixelAt_eq_some] at hpx
  obtain ⟨e0, e1, e2, e3⟩ := hpx
  have hcase : n = 4 * (n / 4) ∨ n = 4 * (n / 4) + 1 ∨ n = 4 * (n / 4) + 2 ∨
      n = 4 * (n / 4) + 3 := by omega
  rcases hcase with hc | hc | hc | hc
  · rw [← hc, hn] at e0; cases e0; exact hr
  · rw [← hc, hn] at e1; cases e1; exact hg
  · rw [← hc, hn] at e2; cases e2; exact hb
  · rw [← hc, hn] at e3; cases e3; exact ha

theorem invertPixels_twice (d : List Nat) (hlen : d.length % 4 = 0) (hch : ∀ x ∈ d, x ≤ 255) :
    ∃ o1 o2, invertPixels d = some o1 ∧ invertPixels o1 = some o2 ∧ o2.length = d.length ∧
      ∀ p, 4 * p < d.length → ∃ r g b a, pixelAt d p = some (r, g, b, a) ∧
        pixelAt o2 p = some (r, g, b, 255) := by
  obtain ⟨o1, h1, l1, p1⟩ := invertPixels_pixels d hlen hch
  have hlen1 : o1.length % 4 = 0 := by rw [l1]; exact hlen
  have hch1 : ∀ x ∈ o1, x ≤ 255 := by
    apply channels_le_of_pixels o1 hlen1
    intro p hp
    obtain ⟨r, g, b, a, _, hq⟩ := p1 p (by rw [← l1]; exact hp)
    exact ⟨_, _, _, _, hq, by omega, by omega, by omega, by omega⟩
  obtain ⟨o2, h2, l2, p2⟩ := invertPixels_pixels o1 hlen1 hch1
  refine ⟨o1, o2, h1, h2, by rw [l2, l1], ?_⟩
  intro p hp
  obtain ⟨r, g, b, a, hd, hq⟩ := p1 p hp
  obtain ⟨r1, g1, b1, a1, hq1, hq2⟩ := p2 p (by rw [l1]; exact hp)
  rw [hq] at hq1
  simp only [Option.some.injEq, Prod.mk.injEq] at hq1
  obtain ⟨er, eg, eb, _⟩ := hq1
  rw [pixelAt_eq_some] at hd
  have hr : r ≤ 255 := hch r (List.getElem?_mem hd.1)
  have hg : g ≤ 255 := hch g (List.getElem?_mem hd.2.1)
  have hb : b ≤ 255 := hch b (List.getElem?_mem hd.2.2.1)
  refine ⟨r, g, b, a, (pixelAt_eq_some d p r g b a).2 hd, ?_⟩
  rw [hq2, ← er, ← eg, ← eb]
  have e1 : 255 - (255 - r) = r := by omega
  have e2 : 255 - (255 - g) = g := by omega
  have e3 : 255 - (255 - b) = b := by omega
  rw [e1, e2, e3]

/-! ## The luminance in exact arithmetic -/

theorem consts_decomp : ∃ q : Nat, 0 < q ∧ scale = 2 ^ 55 * q ∧ c034 = 12249790986447750 * q ∧
    c05 = 2 ^ 54 * q ∧ c016 = 5764607523034235 * q ∧ 2 ^ 1028 = 2 ^ 9 * q ∧
    2 ^ 1029 = 2 ^ 10 * q ∧ 2 ^ 1030 = 2 ^ 11 * q := by
  refine ⟨2 ^ 1019, Nat.two_pow_pos 1019, ?_, ?_, ?_, ?_, ?_, ?_, ?_⟩ <;> decide!

theorem literal_doubles :
    c034 = 6124895493223875 * 2 ^ 1020 ∧ 2 ^ 52 ≤ 6124895493223875 ∧
    6124895493223875 < 2 ^ 53 ∧ 34 * scale ≤ 100 * c034 ∧
    2 * (100 * c034 - 34 * scale) < 100 * 2 ^ 1020 ∧
    2 * c05 = scale ∧
    c016 = 5764607523034235 * 2 ^ 1019 ∧ 2 ^ 52 ≤ 5764607523034235 ∧
    5764607523034235 < 2 ^ 53 ∧ 16 * scale ≤ 100 * c016 ∧
    2 * (100 * c016 - 16 * scale) < 100 * 2 ^ 1019 := by
  decide!

theorem mul_const_ofNat (c r : Nat) :
    JSNum.mul (JSNum.fin (Int.ofNat c)) (JSNum.ofNat r) =
      JSNum.fin (Int.ofNat (roundMag (c * r) 0)) := by
  have h : Int.ofNat c * Int.ofNat (r * scale) = Int.ofNat (c * r * 2 ^ 1074) := by
    rw [← scale_eq]
    simp only [Int.ofNat_eq_coe]
    push_cast
    ring
  simp only [JSNum.mul, JSNum.ofNat, h, roundInt, roundMag_mul_pow]

theorem add_fin_ofNat (a b : Nat) :
    JSNum.add (JSNum.fin (Int.ofNat a)) (JSNum.fin (Int.ofNat b)) =
      JSNum.fin (Int.ofNat (roundMag (a + b) 0)) := by
  have h : Int.ofNat a + Int.ofNat b = Int.ofNat (a + b) := by
    simp only [Int.ofNat_eq_coe]; push_cast; rfl
  simp only [JSNum.add, h, roundInt]

theorem roundMag_near (N t : Nat) (h : N < 2 ^ 53 * 2 ^ t) :
    2 * roundMag N 0 ≤ 2 * N + 2 ^ t ∧ 2 * N ≤ 2 * roundMag N 0 + 2 ^ t :=
  roundMag_err N t (by rw [pow_add]; exact h)

theorem luminance_eq (r g b : Nat) :
    luminance (JSNum.ofNat r) (JSNum.ofNat g) (JSNum.ofNat b) =
      JSNum.fin (Int.ofNat (roundMag (roundMag (roundMag (c034 * r) 0 + roundMag (c05 * g) 0) 0
        + roundMag (c016 * b) 0) 0)) := by
  simp only [luminance, lit034, lit05, lit016, mul_const_ofNat, add_fin_ofNat]

theorem luminance_near (r g b : Nat) (hr : r ≤ 255) (hg : g ≤ 255) (hb : b ≤ 255) :
    ∃ L : Nat, luminance (JSNum.ofNat r) (JSNum.ofNat g) (JSNum.ofNat b) =
        JSNum.fin (Int.ofNat L) ∧
      2 ^ 30 * (100 * L) ≤ 2 ^ 30 * ((34 * r + 50 * g + 16 * b) * scale) + scale ∧
      2 ^ 30 * ((34 * r + 50 * g + 16 * b) * scale) ≤ 2 ^ 30 * (100 * L) + scale := by
  obtain ⟨q, hq, hs, h34, h05, h16, p28, p29, _⟩ := consts_decomp
  refine ⟨_, luminance_eq r g b, ?_⟩
  have eA : c034 * r = 12249790986447750 * (r * q) := by rw [h34]; ring
  have eB : c05 * g = 2 ^ 54 * (g * q) := by rw [h05]; ring
  have eC : c016 * b = 5764607523034235 * (b * q) := by rw [h16]; ring
  have eN : (34 * r + 50 * g + 16 * b) * scale =
      2 ^ 55 * (34 * (r * q) + 50 * (g * q) + 16 * (b * q)) := by rw [hs]; ring
  have hR : r * q ≤ 255 * q := Nat.mul_le_mul_right q hr
  have hG : g * q ≤ 255 * q := Nat.mul_le_mul_right q hg
  have hB : b * q ≤ 255 * q := Nat.mul_le_mul_right q hb
  have nA := roundMag_near (c034 * r) 1028 (by rw [p28, eA]; omega)
  have nB := roundMag_near (c05 * g) 1028 (by rw [p28, eB]; omega)
  have nC := roundMag_near (c016 * b) 1028 (by rw [p28, eC]; omega)
  rw [p28, eA] at nA
  rw [p28, eB] at nB
  rw [p28, eC] at nC
  rw [eA, eB, eC, eN, hs]
  generalize roundMag (12249790986447750 * (r * q)) 0 = A at nA ⊢
  generalize roundMag (2 ^ 54 * (g * q)) 0 = B at nB ⊢
  generalize roundMag (5764607523034235 * (b * q)) 0 = C at nC ⊢
  have nS := roundMag_near (A + B) 1029 (by rw [p29]; omega)
  rw [p29] at nS
  generalize roundMag (A + B) 0 = S at nS ⊢
  have nL := roundMag_near (S + C) 1029 (by rw [p29]; omega)
  rw [p29] at nL
  generalize roundMag (S + C) 0 = L at nL ⊢
  omega

/-! ## Stores of luminance values -/

theorem toUint8Clamp_sat (v : Nat) (hv : 255 * scale ≤ v) :
    toUint8Clamp (JSNum.fin (Int.ofNat v)) = 255 := by
  have hs := scale_pos
  simp only [toUint8Clamp, Int.ofNat_eq_coe]
  rw [if_neg (by omega), if_pos (by omega)]

theorem toUint8Clamp_near (v : Nat) (hv : v ≤ 255 * scale) :
    2 * (toUint8Clamp (JSNum.fin (Int.ofNat v)) * scale) ≤ 2 * v + scale ∧
    2 * v ≤ 2 * (toUint8Clamp (JSNum.fin (Int.ofNat v)) * scale) + scale ∧
    toUint8Clamp (JSNum.fin (Int.ofNat v)) ≤ 255 := by
  have hs := scale_pos
  have hdm : v / scale * scale + v % scale = v := Nat.div_add_mod' v scale
  have hr : v % scale < scale := Nat.mod_lt _ hs
  have hf : v / scale ≤ 254 ∨ 255 * scale ≤ v := by
    by_cases h : 255 * scale ≤ v
    · exact Or.inr h
    · left
      have : v / scale < 255 := (Nat.div_lt_iff_lt_mul hs).2 (by omega)
      omega
  have e1 : (v / scale + 1) * scale = v / scale * scale + scale := by ring
  simp only [toUint8Clamp, Int.ofNat_eq_coe, Int.toNat_ofNat]
  split_ifs <;> (try rw [e1]) <;> omega

theorem toUint8Clamp_le (x : JSNum) : toUint8Clamp x ≤ 255 := by
  cases x with
  | nan => simp [toUint8Clamp]
  | fin v =>
    cases v with
    | ofNat n =>
      by_cases h : n ≤ 255 * scale
      · exact (toUint8Clamp_near n h).2.2
      · rw [toUint8Clamp_sat n (by omega)]
    | negSucc n =>
      simp only [toUint8Clamp]
      rw [if_pos (Int.le_of_lt (Int.negSucc_lt_zero n))]
      omega

theorem mul_scale_lt (a b : Nat) (h : a * scale < b * scale) : a < b :=
  Nat.lt_of_mul_lt_mul_right h

theorem storedLuminance_near (r g b : Nat) (hr : r ≤ 255) (hg : g ≤ 255) (hb : b ≤ 255) :
    100 * storedLuminance r g b ≤ 34 * r + 50 * g + 16 * b + 50 ∧
    34 * r + 50 * g + 16 * b ≤ 100 * storedLuminance r g b + 50 := by
  have hs := scale_pos
  obtain ⟨L, hL, h1, h2⟩ := luminance_near r g b hr hg hb
  unfold storedLuminance
  rw [hL]
  have hn : 34 * r + 50 * g + 16 * b ≤ 25500 := by omega
  generalize 34 * r + 50 * g + 16 * b = n at *
  have hn2 : n * scale ≤ 25500 * scale := Nat.mul_le_mul_right _ hn
  by_cases hc : L ≤ 255 * scale
  · obtain ⟨c1, c2, _⟩ := toUint8Clamp_near L hc
    generalize toUint8Clamp (JSNum.fin (Int.ofNat L)) = s at *
    have k1 : (100 * s) * scale < (n + 51) * scale := by
      have e1 : (100 * s) * scale = 100 * (s * scale) := by ring
      have e2 : (n + 51) * scale = n * scale + 51 * scale := by ring
      omega
    have k2 : n * scale < (100 * s + 51) * scale := by
      have e2 : (100 * s + 51) * scale = 100 * (s * scale) + 51 * scale := by ring
      omega
    have := mul_scale_lt _ _ k1
    have := mul_scale_lt _ _ k2
    omega
  · rw [toUint8Clamp_sat L (by omega)]
    have k2 : 25499 * scale < n * scale := by omega
    have := mul_scale_lt _ _ k2
    omega

theorem storedLuminance_le (r g b : Nat) : storedLuminance r g b ≤ 255 :=
  toUint8Clamp_le _

theorem storedLuminance_grey (v : Nat) (hv : v ≤ 255) : storedLuminance v v v = v := by
  have := storedLuminance_near v v v hv hv hv
  omega

/-! ## greyscale -/

theorem greyscaleBody_length (i : Nat) (d : List Nat) :
    (greyscaleBody i d).length = d.length := by
  simp [greyscaleBody, store_length]

theorem greyscaleBody_get (i : Nat) (d : List Nat) (j : Nat) :
    (greyscaleBody i d)[j]? =
      if j = i ∨ j = i + 1 ∨ j = i + 2 then
        (d[j]?).map (fun _ => toUint8Clamp (brightness d i))
      else d[j]? := by
  simp only [greyscaleBody, store_get]
  by_cases h0 : j = i
  · subst h0
    cases hd : d[j]? <;> simp [hd]
  · by_cases h1 : j = i + 1
    · subst h1
      cases hd : d[i + 1]? <;> simp [hd]
    · by_cases h2 : j = i + 2
      · subst h2
        cases hd : d[i + 2]? <;> simp [hd]
      · have e0 : ¬ i = j := fun h => h0 h.symm
        have e1 : ¬ i + 1 = j := fun h => h1 h.symm
        have e2 : ¬ i + 2 = j := fun h => h2 h.symm
        simp [h0, h1, h2, e0, e1, e2]

theorem brightness_congr (i : Nat) (d e : List Nat)
    (h : ∀ t, t < 4 → d[i + t]? = e[i + t]?) : brightness d i = brightness e i := by
  have h0 := h 0 (by omega)
  have h1 := h 1 (by omega)
  have h2 := h 2 (by omega)
  simp only [Nat.add_zero] at h0
  simp only [brightness, h0, h1, h2]

theorem brightness_pixel (d : List Nat) (p r g b a : Nat) (h : pixelAt d p = some (r, g, b, a)) :
    brightness d (4 * p) = luminance (JSNum.ofNat r) (JSNum.ofNat g) (JSNum.ofNat b) := by
  rw [pixelAt_eq_some] at h
  obtain ⟨e0, e1, e2, _⟩ := h
  simp only [brightness, e0, e1, e2, toNumber]

theorem greyscalePixels_spec (d : List Nat) :
    ∃ out, greyscalePixels d = some out ∧ out.length = d.length ∧
      ∀ p t, t < 4 → 4 * p < d.length →
        out[4 * p + t]? = (greyscaleBody (4 * p) d)[4 * p + t]? := by
  apply pixelLoop_spec greyscaleBody greyscaleBody_length
  · intro i d j hj
    rw [greyscaleBody_get, if_neg (by omega)]
  · intro i d e _ h t ht
    rw [greyscaleBody_get, greyscaleBody_get, h t ht, brightness_congr i d e h]

theorem greyscalePixels_pixels (d : List Nat) (hlen : d.length % 4 = 0) :
    ∃ out, greyscalePixels d = some out ∧ out.length = d.length ∧
      ∀ p, 4 * p < d.length → ∃ r g b a, pixelAt d p = some (r, g, b, a) ∧
        pixelAt out p =
          some (storedLuminance r g b, storedLuminance r g b, storedLuminance r g b, a) := by
  obtain ⟨out, h1, h2, h3⟩ := greyscalePixels_spec d
  refine ⟨out, h1, h2, ?_⟩
  intro p hp
  obtain ⟨r, g, b, a, hpx⟩ := pixelAt_exists d hlen p hp
  refine ⟨r, g, b, a, hpx, ?_⟩
  have hbr := brightness_pixel d p r g b a hpx
  rw [pixelAt_eq_some] at hpx ⊢
  obtain ⟨e0, e1, e2, e3⟩ := hpx
  have q0 := h3 p 0 (by omega) hp
  have q1 := h3 p 1 (by omega) hp
  have q2 := h3 p 2 (by omega) hp
  have q3 := h3 p 3 (by omega) hp
  rw [greyscaleBody_get, hbr] at q0 q1 q2 q3
  simp only [Nat.add_zero] at q0
  refine ⟨?_, ?_, ?_, ?_⟩
  · simp [q0, e0, storedLuminance]
  · simp [q1, e1, storedLuminance]
  · simp [q2, e2, storedLuminance]
  · simp [q3, e3]

theorem greyscalePixels_idem (d : List Nat) (hlen : d.length % 4 = 0) :
    ∃ out, greyscalePixels d = some out ∧ greyscalePixels out = some out := by
  obtain ⟨o1, h1, l1, p1⟩ := greyscalePixels_pixels d hlen
  have hlen1 : o1.length % 4 = 0 := by rw [l1]; exact hlen
  obtain ⟨o2, h2, l2, p2⟩ := greyscalePixels_pixels o1 hlen1
  refine ⟨o1, h1, ?_⟩
  rw [h2]
  congr 1
  apply List.ext_getElem?
  intro n
  by_cases hn : n < o1.length
  · obtain ⟨r, g, b, a, _, hq⟩ := p1 (n / 4) (by omega)
    obtain ⟨r1, g1, b1, a1, hq1, hq2⟩ := p2 (n / 4) (by omega)
    rw [hq] at hq1
    simp only [Option.some.injEq, Prod.mk.injEq] at hq1
    obtain ⟨er, eg, eb, ea⟩ := hq1
    have hs : storedLuminance r g b ≤ 255 := storedLuminance_le r g b
    rw [← er, ← eg, ← eb, ← ea, storedLuminance_grey _ hs, ← hq] at hq2
    have key : ∀ t, t < 4 → o2[4 * (n / 4) + t]? = o1[4 * (n / 4) + t]? := by
      generalize hA : pixelAt o1 (n / 4) = A at hq2
      cases A with
      | none => rw [hq] at hA; cases hA
      | some q =>
        obtain ⟨x, y, z, w⟩ := q
        rw [pixelAt_eq_some] at hq2 hA
        intro t ht
        have : t = 0 ∨ t = 1 ∨ t = 2 ∨ t = 3 := by omega
        rcases this with rfl | rfl | rfl | rfl
        · rw [Nat.add_zero, hq2.1, hA.1]
        · rw [hq2.2.1, hA.2.1]
        · rw [hq2.2.2.1, hA.2.2.1]
        · rw [hq2.2.2.2, hA.2.2.2]
    have := key (n % 4) (Nat.mod_lt _ (by omega))
    rwa [Nat.div_add_mod] at this
  · rw [List.getElem?_eq_none (by omega), List.getElem?_eq_none (by omega)]

/-! ## sepia -/

theorem storedLuminancePlus_near (c r g b : Nat) (hc : c ≤ 100) (hr : r ≤ 255) (hg : g ≤ 255)
    (hb : b ≤ 255) (hsat : 34 * r + 50 * g + 16 * b + 100 * c + 50 ≤ 25600) :
    100 * storedLuminancePlus c r g b ≤ 34 * r + 50 * g + 16 * b + 100 * c + 50 ∧
    34 * r + 50 * g + 16 * b + 100 * c ≤ 100 * storedLuminancePlus c r g b + 50 := by
  obtain ⟨q, hq, hs, _, _, _, _, _, p30⟩ := consts_decomp
  obtain ⟨L, hL, h1, h2⟩ := luminance_near r g b hr hg hb
  unfold storedLuminancePlus
  rw [hL, JSNum.ofNat, add_fin_ofNat]
  have hn : 34 * r + 50 * g + 16 * b ≤ 25500 := by omega
  generalize 34 * r + 50 * g + 16 * b = n at *
  have hcs : c * scale ≤ 100 * scale := Nat.mul_le_mul_right _ hc
  have hns : n * scale ≤ 25500 * scale := Nat.mul_le_mul_right _ hn
  have nV := roundMag_near (L + c * scale) 1030 (by rw [p30]; omega)
  rw [p30] at nV
  generalize roundMag (L + c * scale) 0 = V at nV ⊢
  by_cases hv : V ≤ 255 * scale
  · obtain ⟨c1, c2, _⟩ := toUint8Clamp_near V hv
    generalize toUint8Clamp (JSNum.fin (Int.ofNat V)) = s at *
    have k1 : (100 * s) * scale < (n + 100 * c + 51) * scale := by
      have e1 : (100 * s) * scale = 100 * (s * scale) := by ring
      have e2 : (n + 100 * c + 51) * scale = n * scale + 100 * (c * scale) + 51 * scale := by
        ring
      omega
    have k2 : (n + 100 * c) * scale < (100 * s + 51) * scale := by
      have e1 : (n + 100 * c) * scale = n * scale + 100 * (c * scale) := by ring
      have e2 : (100 * s + 51) * scale = 100 * (s * scale) + 51 * scale := by ring
      omega
    have := mul_scale_lt _ _ k1
    have := mul_scale_lt _ _ k2
    omega
  · rw [toUint8Clamp_sat V (by omega)]
    have k2 : 25499 * scale < (n + 100 * c) * scale := by
      have e1 : (n + 100 * c) * scale = n * scale + 100 * (c * scale) := by ring
      omega
    have := mul_scale_lt _ _ k2
    omega

theorem sepiaBody_length (i : Nat) (d : List Nat) : (sepiaBody i d).length = d.length := by
  simp [sepiaBody, store_length]

theorem sepiaBody_get (i : Nat) (d : List Nat) (j : Nat) :
    (sepiaBody i d)[j]? =
      if j = i then
        (d[j]?).map (fun _ => toUint8Clamp (JSNum.add (brightness d i) (JSNum.ofNat 100)))
      else if j = i + 1 then
        (d[j]?).map (fun _ => toUint8Clamp (JSNum.add (brightness d i) (JSNum.ofNat 50)))
      else if j = i + 2 then (d[j]?).map (fun _ => toUint8Clamp (brightness d i))
      else d[j]? := by
  simp only [sepiaBody, store_get]
  by_cases h0 : j = i
  · subst h0
    cases hd : d[j]? <;> simp [hd]
  · by_cases h1 : j = i + 1
    · subst h1
      cases hd : d[i + 1]? <;> simp [hd]
    · by_cases h2 : j = i + 2
      · subst h2
        cases hd : d[i + 2]? <;> simp [hd]
      · have e0 : ¬ i = j := fun h => h0 h.symm
        have e1 : ¬ i + 1 = j := fun h => h1 h.symm
        have e2 : ¬ i + 2 = j := fun h => h2 h.symm
        simp [h0, h1, h2, e0, e1, e2]

theorem sepiaPixels_spec (d : List Nat) :
    ∃ out, sepiaPixels d = some out ∧ out.length = d.length ∧
      ∀ p t, t < 4 → 4 * p < d.length →
        out[4 * p + t]? = (sepiaBody (4 * p) d)[4 * p + t]? := by
  apply pixelLoop_spec sepiaBody sepiaBody_length
  · intro i d j hj
    rw [sepiaBody_get, if_neg (by omega), if_neg (by omega), if_neg (by omega)]
  · intro i d e _ h t ht
    rw [sepiaBody_get, sepiaBody_get, h t ht, brightness_congr i d e h]

theorem sepiaPixels_pixels (d : List Nat) (hlen : d.length % 4 = 0) :
    ∃ out, sepiaPixels d = some out ∧ out.length = d.length ∧
      ∀ p, 4 * p < d.length → ∃ r g b a, pixelAt d p = some (r, g, b, a) ∧
        pixelAt out p = some (storedLuminancePlus 100 r g b, storedLuminancePlus 50 r g b,
          storedLuminance r g b, a) := by
  obtain ⟨out, h1, h2, h3⟩ := sepiaPixels_spec d
  refine ⟨out, h1, h2, ?_⟩
  intro p hp
  obtain ⟨r, g, b, a, hpx⟩ := pixelAt_exists d hlen p hp
  refine ⟨r, g, b, a, hpx, ?_⟩
  have hbr := brightness_pixel d p r g b a hpx
  rw [pixelAt_eq_some] at hpx ⊢
  obtain ⟨e0, e1, e2, e3⟩ := hpx
  have q0 := h3 p 0 (by omega) hp
  have q1 := h3 p 1 (by omega) hp
  have q2 := h3 p 2 (by omega) hp
  have q3 := h3 p 3 (by omega) hp
  rw [sepiaBody_get, hbr] at q0 q1 q2 q3
  simp only [Nat.add_zero] at q0
  refine ⟨?_, ?_, ?_, ?_⟩
  · simp [q0, e0, storedLuminancePlus]
  · simp [q1, e1, storedLuminancePlus]
  · simp [q2, e2, storedLuminance]
  · simp [q3, e3]

theorem sepia_channel_gap (r g b : Nat) (hr : r ≤ 255) (hg : g ≤ 255) (hb : b ≤ 255) :
    (storedLuminance r g b ≤ 205 →
      storedLuminance r g b + 49 ≤ storedLuminancePlus 50 r g b ∧
      storedLuminancePlus 50 r g b ≤ storedLuminance r g b + 51) ∧
    (storedLuminance r g b ≤ 155 →
      storedLuminancePlus 50 r g b + 49 ≤ storedLuminancePlus 100 r g b ∧
      storedLuminancePlus 100 r g b ≤ storedLuminancePlus 50 r g b + 51) ∧
    ((34 * r + 50 * g + 16 * b) % 100 ≠ 50 →
      (storedLuminance r g b ≤ 205 →
        storedLuminancePlus 50 r g b = storedLuminance r g b + 50) ∧
      (storedLuminance r g b ≤ 155 →
        storedLuminancePlus 100 r g b = storedLuminancePlus 50 r g b + 50)) := by
  have h0 := storedLuminance_near r g b hr hg hb
  have h50 := storedLuminancePlus_near 50 r g b (by omega) hr hg hb
  have h100 := storedLuminancePlus_near 100 r g b (by omega) hr hg hb
  generalize 34 * r + 50 * g + 16 * b = n at *
  refine ⟨?_, ?_, ?_⟩
  · intro h
    have := h50 (by omega)
    omega
  · intro h
    have := h50 (by omega)
    have := h100 (by omega)
    omega
  · intro htie
    constructor
    · intro h
      have := h50 (by omega)
      omega
    · intro h
      have := h50 (by omega)
      have := h100 (by omega)
      omega

/-! ## The guard on the image argument -/

theorem staticTransform_falsy (f : List Nat → Option (List Nat)) (w : World) (v : JSValue)
    (h : truthy v = false) :
    staticTransform f w v = some { calls := [], result := Except.error (expectedImageSource v) } := by
  simp [staticTransform, h]

theorem staticTransform_truthy (f : List Nat → Option (List Nat)) (w : World) (v : JSValue)
    (h : truthy v = true) (hf : ∀ d, ∃ out, f d = some out) :
    ∃ o, staticTransform f w v = some o ∧ o.calls = [Call.loadImage v] ∧
      o.result ≠ Except.error (expectedImageSource v) := by
  unfold staticTransform
  rw [if_neg (by simp [h])]
  cases hd : w.decode v with
  | none =>
    refine ⟨_, rfl, rfl, ?_⟩
    intro hc
    simp [expectedImageSource] at hc
  | some image =>
    obtain ⟨out, ho⟩ := hf image.pixels
    simp only [ho]
    refine ⟨_, rfl, rfl, ?_⟩
    intro hc
    cases hc

theorem trigger_falsy (fuel : Nat) (w : World) (v : JSValue) (h : truthy v = false) :
    trigger fuel w v = some { calls := [], result := Except.error (expectedImageSource v) } := by
  simp [trigger, h]

/-! ## trigger -/

theorem triggerBody_frame (w : World) (img base : Image) (s : TriggerState)
    (hu : s.used = 4 * s.i) (hw : s.ctx.width = 256) (hh : s.ctx.height = 310) :
    (triggerBody w img base s).i = s.i + 1 ∧
    (triggerBody w img base s).used = 4 * (s.i + 1) ∧
    (triggerBody w img base s).ctx.width = 256 ∧
    (triggerBody w img base s).ctx.height = 310 ∧
    (triggerBody w img base s).gif =
      { s.gif with frames := s.gif.frames ++ [triggerFrame w img base s.i] } := by
  refine ⟨rfl, ?_, ?_, ?_, ?_⟩
  · simp only [triggerBody, hu]; omega
  · simp [triggerBody, Canvas.drawImage, Canvas.fillRect, Canvas.setFillStyle, Canvas.clearRect,
      hw, hh]
  · simp [triggerBody, Canvas.drawImage, Canvas.fillRect, Canvas.setFillStyle, Canvas.clearRect,
      hw, hh]
  · simp [triggerBody, Canvas.drawImage, Canvas.fillRect, Canvas.setFillStyle, Canvas.clearRect,
      GIFEncoder.addFrame, triggerFrame, hw, hh, hu]

theorem triggerLoop_spec (w : World) (img base : Image) (fuel : Nat) :
    ∀ s : TriggerState, s.i ≤ 9 → 9 - s.i ≤ fuel → s.used = 4 * s.i → s.ctx.width = 256 →
      s.ctx.height = 310 →
      ∃ t, triggerLoop w img base fuel s = some t ∧ t.i = 9 ∧
        t.gif = { s.gif with frames := s.gif.frames ++
          (List.range' s.i (9 - s.i)).map (triggerFrame w img base) } := by
  induction fuel with
  | zero =>
    intro s h9 hf _ _ _
    have hi : s.i = 9 := by omega
    refine ⟨s, ?_, hi, ?_⟩
    · simp [triggerLoop, hi]
    · simp [hi]
  | succ f ih =>
    intro s h9 hf hu hw hh
    unfold triggerLoop
    by_cases hi : s.i < 9
    · rw [if_pos hi]
      obtain ⟨b1, b2, b3, b4, b5⟩ := triggerBody_frame w img base s hu hw hh
      obtain ⟨t, ht, ht9, htg⟩ := ih (triggerBody w img base s) (by omega) (by omega) b2 b3 b4
      refine ⟨t, ht, ht9, ?_⟩
      rw [htg, b5, b1]
      have e : 9 - s.i = (9 - (s.i + 1)) + 1 := by omega
      rw [e, List.range'_succ]
      simp
    · rw [if_neg hi]
      have hi9 : s.i = 9 := by omega
      refine ⟨s, rfl, hi9, ?_⟩
      simp [hi9]

theorem trigger_run (fuel : Nat) (w : World) (image : JSValue) (bytes : List Nat)
    (base img : Image) (hfuel : 9 ≤ fuel) (ht : truthy image = true)
    (ha : w.readAsset "triggered" = some bytes)
    (hb : w.decode (JSValue.buffer bytes) = some base) (hi : w.decode image = some img) :
    trigger fuel w image = some
      { calls := [Call.loadBuffer "triggered", Call.loadImage (JSValue.buffer bytes),
          Call.loadImage image],
        result := Except.ok
          { width := 256, height := 310, started := true, repeatCount := some 0,
            delay := some 15, frames := (List.range 9).map (triggerFrame w img base),
            finished := true } } := by
  obtain ⟨t, h1, _, h3⟩ := triggerLoop_spec w img base fuel
    { i := 0, ctx := Canvas.create 256 310,
      gif := (((GIFEncoder.new 256 310).start).setRepeat 0).setDelay 15, used := 0 }
    (by simp) (by simp; omega) rfl rfl rfl
  unfold trigger
  rw [if_neg (by simp [ht])]
  simp only [ha, hb, hi, h1, h3]
  simp [GIFEncoder.finish, GIFEncoder.getData, GIFEncoder.new, GIFEncoder.start,
    GIFEncoder.setRepeat, GIFEncoder.setDelay, List.range_eq_range']

/-! ## The random offsets of trigger -/

theorem isRandomValue_elim (u : JSNum) (h : isRandomValue u = true) :
    ∃ m : Nat, u = JSNum.fin (Int.ofNat m) ∧ m < scale ∧ roundMag m 0 = m := by
  cases u with
  | nan => simp [isRandomValue] at h
  | fin v =>
    cases v with
    | ofNat n =>
      simp only [isRandomValue, Bool.and_eq_true, decide_eq_true_eq, roundInt] at h
      obtain ⟨⟨_, h2⟩, h3⟩ := h
      refine ⟨n, rfl, ?_, ?_⟩
      · simp only [Int.ofNat_eq_coe] at h2; exact_mod_cast h2
      · exact Int.ofNat.inj h3
    | negSucc n =>
      simp only [isRandomValue, Bool.and_eq_true, decide_eq_true_eq] at h
      exact absurd h.1.1 (by have := Int.negSucc_lt_zero n; omega)

theorem double_below_one (m : Nat) (hd : roundMag m 0 = m) (hm : m < scale) :
    m + 2 ^ 1021 ≤ scale := by
  have e1 : scale = 2 ^ 53 * 2 ^ 1021 := by decide!
  have e2 : (2 : Nat) ^ 1073 = 2 ^ 52 * 2 ^ 1021 := by decide!
  by_cases hlow : m < 2 ^ 1073
  · rw [e2] at hlow
    rw [e1]
    generalize (2 : Nat) ^ 1021 = q at *
    omega
  · have hb1 : 1074 ≤ bitLen m := le_bitLen m 1073 (by omega)
    have hb2 : bitLen m ≤ 1074 := bitLen_le m 1074 (by rw [← scale_eq]; exact hm)
    have hdvd := roundMag_dvd m
    rw [hd, show bitLen m - 53 = 1021 by omega] at hdvd
    obtain ⟨j, hj⟩ := hdvd
    rw [e1, hj] at hm ⊢
    have hq : 0 < 2 ^ 1021 := by positivity
    generalize (2 : Nat) ^ 1021 = q at *
    have hj2 : j < 2 ^ 53 := by
      rw [Nat.mul_comm (2 ^ 53) q] at hm
      exact Nat.lt_of_mul_lt_mul_left hm
    have : q * (j + 1) ≤ q * 2 ^ 53 := Nat.mul_le_mul_left q hj2
    rw [Nat.mul_comm (2 ^ 53) q]
    rw [Nat.mul_add, Nat.mul_one] at this
    exact this

theorem floor_fin (V : Nat) :
    JSNum.floor (JSNum.fin (Int.ofNat V)) = JSNum.ofNat (V / scale) := by
  simp only [JSNum.floor, JSNum.ofNat, Int.ofNat_eq_coe]
  congr 1

theorem floor_mul_random (u : JSNum) (h : isRandomValue u = true) (n t : Nat)
    (hn : n * scale < 2 ^ 53 * 2 ^ t) (hg : 2 ^ t < 2 * (n * 2 ^ 1021)) :
    ∃ f, f < n ∧ JSNum.floor (JSNum.mul u (JSNum.ofNat n)) = JSNum.ofNat f := by
  obtain ⟨m, rfl, hm, hd⟩ := isRandomValue_elim u h
  have hb := double_below_one m hd hm
  have hmn : m * n + n * 2 ^ 1021 ≤ n * scale := by
    have := Nat.mul_le_mul_left n hb
    rw [Nat.mul_add] at this
    rw [Nat.mul_comm m n]
    exact this
  have nV := roundMag_near (m * n) t (by omega)
  rw [mul_const_ofNat, floor_fin]
  refine ⟨roundMag (m * n) 0 / scale, ?_, rfl⟩
  apply (Nat.div_lt_iff_lt_mul scale_pos).2
  omega

theorem add_ofNat (a b : Nat) (h : a + b < 2 ^ 53) :
    JSNum.add (JSNum.ofNat a) (JSNum.ofNat b) = JSNum.ofNat (a + b) := by
  rw [JSNum.ofNat, JSNum.ofNat, add_fin_ofNat, ← Nat.add_mul, roundMag_ofNat _ h, JSNum.ofNat]

theorem sub_ofNat_neg (a b : Nat) (h : a < b) (hb : b < 2 ^ 53) :
    JSNum.sub (JSNum.ofNat a) (JSNum.ofNat b) =
      JSNum.fin (-(Int.ofNat ((b - a) * scale))) := by
  have hs := scale_pos
  have hpos : 0 < (b - a) * scale := Nat.mul_pos (by omega) hs
  obtain ⟨k, hk⟩ : ∃ k, (b - a) * scale = k + 1 := ⟨(b - a) * scale - 1, by omega⟩
  have hz : Int.ofNat (a * scale) - Int.ofNat (b * scale) = Int.negSucc k := by
    have e : b * scale = a * scale + (b - a) * scale := by
      rw [← Nat.add_mul]; congr 1; omega
    rw [Int.negSucc_eq, e, hk]
    simp only [Int.ofNat_eq_coe]
    push_cast
    ring
  have hr : roundMag (k + 1) 0 = k + 1 := by
    rw [← hk]; exact roundMag_ofNat _ (by omega)
  simp only [JSNum.sub, JSNum.ofNat, hz, roundInt, hr, hk]

theorem jitter_range (u : JSNum) (h : isRandomValue u = true) (n t : Nat) (hn53 : n < 2 ^ 53)
    (hn : n * scale < 2 ^ 53 * 2 ^ t) (hg : 2 ^ t < 2 * (n * 2 ^ 1021)) :
    ∃ z : Int, -(n : Int) ≤ z ∧ z ≤ -1 ∧ jitter u n = JSNum.fin (z * (scale : Int)) := by
  obtain ⟨f, hf, he⟩ := floor_mul_random u h n t hn hg
  refine ⟨-((n - f : Nat) : Int), by omega, by omega, ?_⟩
  rw [jitter, he, sub_ofNat_neg f n hf hn53]
  congr 1
  simp only [Int.ofNat_eq_coe]
  push_cast
  ring

theorem jitterBottom_range (u : JSNum) (h : isRandomValue u = true) :
    ∃ z : Int, 246 ≤ z ∧ z ≤ 255 ∧ jitterBottom u 10 = JSNum.fin (z * (scale : Int)) := by
  obtain ⟨f, hf, he⟩ := floor_mul_random u h 10 1025 (by decide!) (by decide!)
  refine ⟨((246 + f : Nat) : Int), by omega, by omega, ?_⟩
  rw [jitterBottom, he, sub_ofNat 310 54 (by omega) (by norm_num),
    add_ofNat _ _ (by norm_num; omega), sub_ofNat _ 10 (by omega) (by norm_num; omega)]
  rw [JSNum.ofNat]
  congr 1
  simp only [Int.ofNat_eq_coe]
  push_cast
  have : 310 - 54 + f - 10 = 246 + f := by omega
  rw [this]
  push_cast
  ring

theorem jitter20_range (u : JSNum) (h : isRandomValue u = true) :
    ∃ z : Int, -20 ≤ z ∧ z ≤ -1 ∧ jitter u 20 = JSNum.fin (z * (scale : Int)) :=
  jitter_range u h 20 1026 (by norm_num) (by decide!) (by decide!)

theorem jitter10_range (u : JSNum) (h : isRandomValue u = true) :
    ∃ z : Int, -10 ≤ z ∧ z ≤ -1 ∧ jitter u 10 = JSNum.fin (z * (scale : Int)) :=
  jitter_range u h 10 1025 (by norm_num) (by decide!) (by decide!)

/-! ## rgb -/

theorem rgbFinish_throws (e : GIFEncoder) :
    rgbFinish e =
      { encoder := e, result := Except.error (Thrown.referenceError "GIF is not defined") } := by
  rfl

theorem rgbLoop_ends (args : RGBArgs) (fuel : Nat) :
    ∀ s : RgbState, args.color.length - s.i ≤ fuel → ∃ t, rgbLoop args fuel s = some t := by
  induction fuel with
  | zero =>
    intro s h
    exact ⟨s, by simp only [rgbLoop]; rw [if_neg (by omega)]⟩
  | succ f ih =>
    intro s h
    unfold rgbLoop
    by_cases hi : s.i < args.color.length
    · rw [dif_pos hi]
      exact ih _ (by simp only [rgbBody]; omega)
    · rw [dif_neg hi]
      exact ⟨s, rfl⟩

theorem rgb_throws (defaults : RGBArgs) (argument : Option RGBArgs) :
    ∃ run, rgb defaults argument = some run ∧
      run.result = Except.error (Thrown.referenceError "GIF is not defined") := by
  obtain ⟨t, ht⟩ := rgbLoop_ends (argument.getD defaults) (argument.getD defaults).color.length
    { i := 0, ctx := Canvas.create (argument.getD defaults).width (argument.getD defaults).height,
      encoder := (((GIFEncoder.new (argument.getD defaults).width
        (argument.getD defaults).height).start).setRepeat 0).setDelay
          (argument.getD defaults).delay }
    (by simp)
  refine ⟨rgbFinish t.encoder, ?_, by rw [rgbFinish_throws]⟩
  simp only [rgb, ht]

theorem rgb_no_colors (defaults args : RGBArgs) (h : args.color = []) :
    ∃ run, rgb defaults (some args) = some run ∧
      (∀ e, run.result ≠ Except.error (Thrown.canvaError e)) ∧
      run.encoder.frames = [] ∧ run.encoder.width = args.width ∧
      run.encoder.height = args.height ∧ run.encoder.started = true ∧
      run.encoder.repeatCount = some 0 ∧ run.encoder.delay = some args.delay := by
  refine ⟨rgbFinish ((((GIFEncoder.new args.width args.height).start).setRepeat 0).setDelay
    args.delay), ?_, ?_, ?_⟩
  · simp [rgb, h, rgbLoop]
  · intro e he
    rw [rgbFinish_throws] at he
    cases he
  · rw [rgbFinish_throws]
    simp [GIFEncoder.new, GIFEncoder.start, GIFEncoder.setRepeat, GIFEncoder.setDelay]

/-! ## Statements assembled for the claims -/

theorem pixelLoops_end :
    (∀ d, ∃ out, invertPixels d = some out) ∧ (∀ d, ∃ out, greyscalePixels d = some out) ∧
      (∀ d, ∃ out, sepiaPixels d = some out) :=
  ⟨fun d => (invertPixels_spec d).imp fun _ h => h.1,
   fun d => (greyscalePixels_spec d).imp fun _ h => h.1,
   fun d => (sepiaPixels_spec d).imp fun _ h => h.1⟩

theorem trigger_truthy (fuel : Nat) (w : World) (v : JSValue) (h : truthy v = true) :
    ∀ o, trigger fuel w v = some o →
      o.calls ≠ [] ∧ o.result ≠ Except.error (expectedImageSource v) := by
  intro o ho
  unfold trigger at ho
  rw [if_neg (by simp [h])] at ho
  split at ho
  · cases ho
    exact ⟨by simp, by intro hc; cases hc⟩
  · split at ho
    · cases ho
      exact ⟨by simp, by intro hc; cases hc⟩
    · split at ho
      · cases ho
        refine ⟨by simp, ?_⟩
        intro hc
        simp [expectedImageSource] at hc
      · dsimp only at ho
        split at ho
        · cases ho
        · cases ho
          exact ⟨by simp, by intro hc; cases hc⟩

theorem guard_falsy (w : World) (fuel : Nat) (v : JSValue) (h : truthy v = false) :
    invert w v = some { calls := [], result := Except.error (expectedImageSource v) } ∧
    greyscale w v = some { calls := [], result := Except.error (expectedImageSource v) } ∧
    sepia w v = some { calls := [], result := Except.error (expectedImageSource v) } ∧
    trigger fuel w v = some { calls := [], result := Except.error (expectedImageSource v) } :=
  ⟨staticTransform_falsy _ w v h, staticTransform_falsy _ w v h, staticTransform_falsy _ w v h,
    trigger_falsy fuel w v h⟩

theorem guard_truthy (w : World) (fuel : Nat) (v : JSValue) (h : truthy v = true) :
    (∃ o, invert w v = some o ∧ o.calls = [Call.loadImage v] ∧
      o.result ≠ Except.error (expectedImageSource v)) ∧
    (∃ o, greyscale w v = some o ∧ o.calls = [Call.loadImage v] ∧
      o.result ≠ Except.error (expectedImageSource v)) ∧
    (∃ o, sepia w v = some o ∧ o.calls = [Call.loadImage v] ∧
      o.result ≠ Except.error (expectedImageSource v)) ∧
    (∀ o, trigger fuel w v = some o →
      o.calls ≠ [] ∧ o.result ≠ Except.error (expectedImageSource v)) :=
  ⟨staticTransform_truthy _ w v h pixelLoops_end.1,
   staticTransform_truthy _ w v h pixelLoops_end.2.1,
   staticTransform_truthy _ w v h pixelLoops_end.2.2,
   trigger_truthy fuel w v h⟩

theorem expectedImageSource_eq (v : JSValue) :
    expectedImageSource v = Thrown.canvaError
      { message := "Expected ImageSource, received " ++ typeOf v ++ "!", name := "CanvaError" } :=
  rfl

theorem truthy_string (s : String) (h : s ≠ "") : truthy (JSValue.string s) = true := by
  simp [truthy, h]

theorem trigger_frames_get (w : World) (img base : Image) (k : Nat) (hk : k < 9) :
    ((List.range 9).map (triggerFrame w img base))[k]? = some (triggerFrame w img base k) := by
  rw [List.getElem?_map, List.getElem?_range hk]
  rfl

/-! ## The claims -/

/-- Claim C1: on an RGBA buffer (length a multiple of 4, channels in 0..255) the pixel loop
of invert returns a buffer of the same length in which every pixel (r, g, b, a) has become
(255 - r, 255 - g, 255 - b, 255). -/
theorem invert_pixels (d : List Nat) (hlen : d.length % 4 = 0) (hch : ∀ x ∈ d, x ≤ 255) :
    ∃ out, invertPixels d = some out ∧ out.length = d.length ∧
      ∀ p, 4 * p < d.length → ∃ r g b a, pixelAt d p = some (r, g, b, a) ∧
        pixelAt out p = some (255 - r, 255 - g, 255 - b, 255) :=
  invertPixels_pixels d hlen hch

theorem invert_pixels_witness :
    ([10, 20, 30, 40, 255, 0, 7, 9] : List Nat).length % 4 = 0 ∧
    (∀ x ∈ ([10, 20, 30, 40, 255, 0, 7, 9] : List Nat), x ≤ 255) ∧
    ∃ out, invertPixels [10, 20, 30, 40, 255, 0, 7, 9] = some out ∧
      out.length = ([10, 20, 30, 40, 255, 0, 7, 9] : List Nat).length ∧
      ∀ p, 4 * p < ([10, 20, 30, 40, 255, 0, 7, 9] : List Nat).length →
        ∃ r g b a, pixelAt [10, 20, 30, 40, 255, 0, 7, 9] p = some (r, g, b, a) ∧
          pixelAt out p = some (255 - r, 255 - g, 255 - b, 255) :=
  ⟨by decide, by decide, invert_pixels [10, 20, 30, 40, 255, 0, 7, 9] (by decide) (by decide)⟩

/-- Claim C2: applying the invert pixel loop twice to an RGBA buffer gives back the red,
green and blue channels of every pixel, and every alpha channel is 255 whatever it was. -/
theorem invert_twice (d : List Nat) (hlen : d.length % 4 = 0) (hch : ∀ x ∈ d, x ≤ 255) :
    ∃ o1 o2, invertPixels d = some o1 ∧ invertPixels o1 = some o2 ∧ o2.length = d.length ∧
      ∀ p, 4 * p < d.length → ∃ r g b a, pixelAt d p = some (r, g, b, a) ∧
        pixelAt o2 p = some (r, g, b, 255) :=
  invertPixels_twice d hlen hch

theorem invert_twice_witness :
    ([10, 20, 30, 40, 255, 0, 7, 9] : List Nat).length % 4 = 0 ∧
    (∀ x ∈ ([10, 20, 30, 40, 255, 0, 7, 9] : List Nat), x ≤ 255) ∧
    ∃ o1 o2, invertPixels [10, 20, 30, 40, 255, 0, 7, 9] = some o1 ∧
      invertPixels o1 = some o2 ∧
      o2.length = ([10, 20, 30, 40, 255, 0, 7, 9] : List Nat).length ∧
      ∀ p, 4 * p < ([10, 20, 30, 40, 255, 0, 7, 9] : List Nat).length →
        ∃ r g b a, pixelAt [10, 20, 30, 40, 255, 0, 7, 9] p = some (r, g, b, a) ∧
          pixelAt o2 p = some (r, g, b, 255) :=
  ⟨by decide, by decide, invert_twice [10, 20, 30, 40, 255, 0, 7, 9] (by decide) (by decide)⟩

/-- Claim C7 (the code departs from it): on the configuration of the specification,
one colour "#FF0000" on a 10 x 10 canvas with delay 15, rgb adds the single red frame to
the encoder and then throws a ReferenceError at the statement that names GIF, which is
not bound in rgb; no GIF is returned and the encoder is never finished. -/
theorem rgb_one_red_frame_throws :
    rgb { color := ["#FF0000", "#00FF00", "#0000FF"], width := 256, height := 256, delay := 15 }
        (some { color := ["#FF0000"], width := 10, height := 10, delay := 15 }) =
      some
        { encoder :=
            { width := 10, height := 10, started := true, repeatCount := some 0,
              delay := some 15,
              frames := [{ width := 10, height := 10,
                           content := [DrawOp.fillRect "#FF0000" 0 0 10 10] }],
              finished := false },
          result := Except.error (Thrown.referenceError "GIF is not defined") } := by
  rfl

/-- Claim C8, as stated, fails: with an empty colour list rgb throws no CanvaError (the
error of the guards); what it throws is not an input error at all. -/
theorem rgb_empty_no_invalid_input :
    rgb { color := ["#FF0000"], width := 256, height := 256, delay := 15 }
        (some { color := [], width := 10, height := 10, delay := 15 }) =
      some
        { encoder :=
            { width := 10, height := 10, started := true, repeatCount := some 0,
              delay := some 15, frames := [], finished := false },
          result := Except.error (Thrown.referenceError "GIF is not defined") } ∧
    ∀ e, Thrown.referenceError "GIF is not defined" ≠ Thrown.canvaError e :=
  ⟨rfl, fun _ h => by cases h⟩

/-- Claim C8, amended: for every configuration whose colour list is empty, rgb validates
nothing and throws no CanvaError: the encoder is created with the configured size,
started, set to repeat 0 and to the configured delay, and no frame is added to it. -/
theorem rgb_empty_adds_no_frame (defaults args : RGBArgs) (h : args.color = []) :
    ∃ run, rgb defaults (some args) = some run ∧
      (∀ e, run.result ≠ Except.error (Thrown.canvaError e)) ∧
      run.encoder.frames = [] ∧ run.encoder.width = args.width ∧
      run.encoder.height = args.height ∧ run.encoder.started = true ∧
      run.encoder.repeatCount = some 0 ∧ run.encoder.delay = some args.delay :=
  rgb_no_colors defaults args h

theorem rgb_empty_adds_no_frame_witness :
    ({ color := [], width := 10, height := 10, delay := 15 } : RGBArgs).color = [] ∧
    ∃ run, rgb { color := ["#FF0000"], width := 256, height := 256, delay := 15 }
        (some { color := [], width := 10, height := 10, delay := 15 }) = some run ∧
      (∀ e, run.result ≠ Except.error (Thrown.canvaError e)) ∧
      run.encoder.frames = [] ∧ run.encoder.width = 10 ∧
      run.encoder.height = 10 ∧ run.encoder.started = true ∧
      run.encoder.repeatCount = some 0 ∧ run.encoder.delay = some 15 :=
  ⟨rfl, rgb_empty_adds_no_frame
    { color := ["#FF0000"], width := 256, height := 256, delay := 15 }
    { color := [], width := 10, height := 10, delay := 15 } rfl⟩

/-- Claim C3: on an RGBA buffer the pixel loop of greyscale makes the three colour channels
of every pixel equal to the luminance 0.34*r + 0.5*g + 0.16*b of the input pixel as stored
in an 8-bit channel, a nearest integer of (34r + 50g + 16b)/100, and leaves alpha alone. -/
theorem greyscale_pixels (d : List Nat) (hlen : d.length % 4 = 0) (hch : ∀ x ∈ d, x ≤ 255) :
    ∃ out, greyscalePixels d = some out ∧ out.length = d.length ∧
      ∀ p, 4 * p < d.length → ∃ r g b a, pixelAt d p = some (r, g, b, a) ∧
        pixelAt out p =
          some (storedLuminance r g b, storedLuminance r g b, storedLuminance r g b, a) ∧
        storedLuminance r g b =
          toUint8Clamp (luminance (JSNum.ofNat r) (JSNum.ofNat g) (JSNum.ofNat b)) ∧
        100 * storedLuminance r g b ≤ 34 * r + 50 * g + 16 * b + 50 ∧
        34 * r + 50 * g + 16 * b ≤ 100 * storedLuminance r g b + 50 := by
  obtain ⟨out, h1, h2, h3⟩ := greyscalePixels_pixels d hlen
  refine ⟨out, h1, h2, ?_⟩
  intro p hp
  obtain ⟨r, g, b, a, hpx, hout⟩ := h3 p hp
  have hq := (pixelAt_eq_some d p r g b a).1 hpx
  have hn := storedLuminance_near r g b (hch r (List.getElem?_mem hq.1))
    (hch g (List.getElem?_mem hq.2.1)) (hch b (List.getElem?_mem hq.2.2.1))
  exact ⟨r, g, b, a, hpx, hout, rfl, hn.1, hn.2⟩

theorem greyscale_pixels_witness :
    ([10, 20, 30, 40, 255, 0, 7, 9] : List Nat).length % 4 = 0 ∧
    (∀ x ∈ ([10, 20, 30, 40, 255, 0, 7, 9] : List Nat), x ≤ 255) ∧
    ∃ out, greyscalePixels [10, 20, 30, 40, 255, 0, 7, 9] = some out ∧
      out.length = ([10, 20, 30, 40, 255, 0, 7, 9] : List Nat).length ∧
      ∀ p, 4 * p < ([10, 20, 30, 40, 255, 0, 7, 9] : List Nat).length →
        ∃ r g b a, pixelAt [10, 20, 30, 40, 255, 0, 7, 9] p = some (r, g, b, a) ∧
        pixelAt out p =
          some (storedLuminance r g b, storedLuminance r g b, storedLuminance r g b, a) ∧
        storedLuminance r g b =
          toUint8Clamp (luminance (JSNum.ofNat r) (JSNum.ofNat g) (JSNum.ofNat b)) ∧
        100 * storedLuminance r g b ≤ 34 * r + 50 * g + 16 * b + 50 ∧
        34 * r + 50 * g + 16 * b ≤ 100 * storedLuminance r g b + 50 :=
  ⟨by decide, by decide,
    greyscale_pixels [10, 20, 30, 40, 255, 0, 7, 9] (by decide) (by decide)⟩

/-- Claim C4: the pixel loop of greyscale is idempotent on RGBA buffers, applying it to its
own output gives that output again; and the luminance of a pixel with r = g = b = v, stored
back in an 8-bit channel, is v. -/
theorem greyscale_idempotent (d : List Nat) (hlen : d.length % 4 = 0) :
    (∃ out, greyscalePixels d = some out ∧ greyscalePixels out = some out) ∧
      ∀ v, v ≤ 255 → storedLuminance v v v = v :=
  ⟨greyscalePixels_idem d hlen, storedLuminance_grey⟩

theorem greyscale_idempotent_witness :
    ([10, 20, 30, 40, 255, 0, 7, 9] : List Nat).length % 4 = 0 ∧
    ((∃ out, greyscalePixels [10, 20, 30, 40, 255, 0, 7, 9] = some out ∧
        greyscalePixels out = some out) ∧
      ∀ v, v ≤ 255 → storedLuminance v v v = v) :=
  ⟨by decide, greyscale_idempotent [10, 20, 30, 40, 255, 0, 7, 9] (by decide)⟩

/-- Claim C5, as stated, fails: a white pixel comes out of the sepia loop as
(255, 255, 255), all three channels clamped, and the pixel (1, 0, 201), whose luminance is
the double just above 32.5, comes out as (132, 82, 33); neither has both differences 50. -/
theorem sepia_differences_fail :
    sepiaPixels [255, 255, 255, 255, 1, 0, 201, 255] =
      some [255, 255, 255, 255, 132, 82, 33, 255] ∧
    ¬ (255 - 255 = 50 ∧ 255 - 255 = 50) ∧ ¬ (132 - 82 = 50 ∧ 82 - 33 = 50) := by
  refine ⟨by decide!, by decide, by decide⟩

/-- Claim C5, amended: in the output of the sepia loop on an RGBA buffer, every pixel has
g' - b' within 1 of 50 when b' is at most 205 and r' - g' within 1 of 50 when b' is at most
155, and these differences are exactly 50 when the exact luminance (34r + 50g + 16b)/100
is not half-way between two integers; b' is the stored luminance, alpha is unchanged. -/
theorem sepia_differences (d : List Nat) (hlen : d.length % 4 = 0) (hch : ∀ x ∈ d, x ≤ 255) :
    ∃ out, sepiaPixels d = some out ∧ out.length = d.length ∧
      ∀ p, 4 * p < d.length → ∃ r g b a r' g' b', pixelAt d p = some (r, g, b, a) ∧
        pixelAt out p = some (r', g', b', a) ∧ b' = storedLuminance r g b ∧
        (b' ≤ 205 → 49 ≤ g' - b' ∧ g' - b' ≤ 51) ∧
        (b' ≤ 155 → 49 ≤ r' - g' ∧ r' - g' ≤ 51) ∧
        ((34 * r + 50 * g + 16 * b) % 100 ≠ 50 →
          (b' ≤ 205 → g' - b' = 50) ∧ (b' ≤ 155 → r' - g' = 50 ∧ g' - b' = 50)) := by
  obtain ⟨out, h1, h2, h3⟩ := sepiaPixels_pixels d hlen
  refine ⟨out, h1, h2, ?_⟩
  intro p hp
  obtain ⟨r, g, b, a, hpx, hout⟩ := h3 p hp
  have hq := (pixelAt_eq_some d p r g b a).1 hpx
  refine ⟨r, g, b, a, _, _, _, hpx, hout, rfl, ?_⟩
  obtain ⟨s1, s2, s3⟩ := sepia_channel_gap r g b (hch r (List.getElem?_mem hq.1))
    (hch g (List.getElem?_mem hq.2.1)) (hch b (List.getElem?_mem hq.2.2.1))
  refine ⟨?_, ?_, ?_⟩
  · intro hb
    have := s1 hb
    omega
  · intro hb
    have := s2 hb
    omega
  · intro htie
    have hs := s3 htie
    constructor
    · intro hb
      have := hs.1 hb
      omega
    · intro hb
      have := hs.1 (by omega)
      have := hs.2 hb
      omega

theorem sepia_differences_witness :
    ([10, 20, 30, 40, 255, 0, 7, 9] : List Nat).length % 4 = 0 ∧
    (∀ x ∈ ([10, 20, 30, 40, 255, 0, 7, 9] : List Nat), x ≤ 255) ∧
    ∃ out, sepiaPixels [10, 20, 30, 40, 255, 0, 7, 9] = some out ∧
      out.length = ([10, 20, 30, 40, 255, 0, 7, 9] : List Nat).length ∧
      ∀ p, 4 * p < ([10, 20, 30, 40, 255, 0, 7, 9] : List Nat).length →
        ∃ r g b a r' g' b', pixelAt [10, 20, 30, 40, 255, 0, 7, 9] p = some (r, g, b, a) ∧
        pixelAt out p = some (r', g', b', a) ∧ b' = storedLuminance r g b ∧
        (b' ≤ 205 → 49 ≤ g' - b' ∧ g' - b' ≤ 51) ∧
        (b' ≤ 155 → 49 ≤ r' - g' ∧ r' - g' ≤ 51) ∧
        ((34 * r + 50 * g + 16 * b) % 100 ≠ 50 →
          (b' ≤ 205 → g' - b' = 50) ∧ (b' ≤ 155 → r' - g' = 50 ∧ g' - b' = 50)) :=
  ⟨by decide, by decide,
    sepia_differences [10, 20, 30, 40, 255, 0, 7, 9] (by decide) (by decide)⟩

/-- Claim C6: called with an absent or empty image argument (undefined, null, the empty
string), each of invert, greyscale, sepia and trigger throws the CanvaError
"Expected ImageSource, received ...!" before any collaborator is called and returns no
buffer; with a non-empty string or a buffer the guard lets the call through to the decoder. -/
theorem guard_on_image_argument (w : World) (fuel : Nat) (v : JSValue) :
    (v = JSValue.undefined ∨ v = JSValue.null ∨ v = JSValue.string "" →
      invert w v = some { calls := [], result := Except.error (expectedImageSource v) } ∧
      greyscale w v = some { calls := [], result := Except.error (expectedImageSource v) } ∧
      sepia w v = some { calls := [], result := Except.error (expectedImageSource v) } ∧
      trigger fuel w v = some { calls := [], result := Except.error (expectedImageSource v) } ∧
      expectedImageSource v = Thrown.canvaError
        { message := "Expected ImageSource, received " ++ typeOf v ++ "!",
          name := "CanvaError" }) ∧
    ((∃ s, s ≠ "" ∧ v = JSValue.string s) ∨ (∃ bytes, v = JSValue.buffer bytes) →
      (∃ o, invert w v = some o ∧ o.calls = [Call.loadImage v] ∧
        o.result ≠ Except.error (expectedImageSource v)) ∧
      (∃ o, greyscale w v = some o ∧ o.calls = [Call.loadImage v] ∧
        o.result ≠ Except.error (expectedImageSource v)) ∧
      (∃ o, sepia w v = some o ∧ o.calls = [Call.loadImage v] ∧
        o.result ≠ Except.error (expectedImageSource v)) ∧
      (∀ o, trigger fuel w v = some o →
        o.calls ≠ [] ∧ o.result ≠ Except.error (expectedImageSource v))) := by
  constructor
  · intro h
    have hf : truthy v = false := by
      rcases h with rfl | rfl | rfl <;> rfl
    obtain ⟨a, b, c, e⟩ := guard_falsy w fuel v hf
    exact ⟨a, b, c, e, expectedImageSource_eq v⟩
  · intro h
    have ht : truthy v = true := by
      rcases h with ⟨s, hs, rfl⟩ | ⟨bytes, rfl⟩
      · exact truthy_string s hs
      · rfl
    exact guard_truthy w fuel v ht

theorem guard_on_image_argument_witness :
    (JSValue.undefined = JSValue.undefined ∨ JSValue.undefined = JSValue.null ∨
      JSValue.undefined = JSValue.string "") ∧
    (invert sampleWorld JSValue.undefined =
        some { calls := [], result := Except.error (expectedImageSource JSValue.undefined) } ∧
      greyscale sampleWorld JSValue.undefined =
        some { calls := [], result := Except.error (expectedImageSource JSValue.undefined) } ∧
      sepia sampleWorld JSValue.undefined =
        some { calls := [], result := Except.error (expectedImageSource JSValue.undefined) } ∧
      trigger 9 sampleWorld JSValue.undefined =
        some { calls := [], result := Except.error (expectedImageSource JSValue.undefined) } ∧
      expectedImageSource JSValue.undefined = Thrown.canvaError
        { message := "Expected ImageSource, received " ++ typeOf JSValue.undefined ++ "!",
          name := "CanvaError" }) :=
  ⟨Or.inl rfl, (guard_on_image_argument sampleWorld 9 JSValue.undefined).1 (Or.inl rfl)⟩

/-- Claim C9: for every image argument that passes the guard and decodes, and whatever
Math.random returns, trigger ends its loop (nine passes are enough) and returns the data of
an encoder created 256 x 310, started, set to repeat 0 and delay 15, holding exactly 9
frames, each taken from the 256 x 310 canvas, and finished. -/
theorem trigger_nine_frames (fuel : Nat) (w : World) (image : JSValue) (bytes : List Nat)
    (base img : Image) (hfuel : 9 ≤ fuel) (ht : truthy image = true)
    (ha : w.readAsset "triggered" = some bytes)
    (hb : w.decode (JSValue.buffer bytes) = some base) (hi : w.decode image = some img) :
    ∃ gif, trigger fuel w image = some
        { calls := [Call.loadBuffer "triggered", Call.loadImage (JSValue.buffer bytes),
            Call.loadImage image],
          result := Except.ok gif } ∧
      gif.width = 256 ∧ gif.height = 310 ∧ gif.started = true ∧ gif.repeatCount = some 0 ∧
      gif.delay = some 15 ∧ gif.frames.length = 9 ∧
      (∀ f ∈ gif.frames, f.width = 256 ∧ f.height = 310) ∧ gif.finished = true := by
  refine ⟨_, trigger_run fuel w image bytes base img hfuel ht ha hb hi, rfl, rfl, rfl, rfl, rfl,
    by simp, ?_, rfl⟩
  intro f hf
  simp only [List.mem_map] at hf
  obtain ⟨k, _, rfl⟩ := hf
  exact ⟨rfl, rfl⟩

theorem trigger_nine_frames_witness :
    (9 ≤ 9 ∧ truthy (JSValue.string "avatar.png") = true ∧
      sampleWorld.readAsset "triggered" = some [137, 80, 78, 71] ∧
      sampleWorld.decode (JSValue.buffer [137, 80, 78, 71]) =
        some { width := 1, height := 1, pixels := [10, 20, 30, 40] } ∧
      sampleWorld.decode (JSValue.string "avatar.png") =
        some { width := 1, height := 1, pixels := [10, 20, 30, 40] }) ∧
    ∃ gif, trigger 9 sampleWorld (JSValue.string "avatar.png") = some
        { calls := [Call.loadBuffer "triggered",
            Call.loadImage (JSValue.buffer [137, 80, 78, 71]),
            Call.loadImage (JSValue.string "avatar.png")],
          result := Except.ok gif } ∧
      gif.width = 256 ∧ gif.height = 310 ∧ gif.started = true ∧ gif.repeatCount = some 0 ∧
      gif.delay = some 15 ∧ gif.frames.length = 9 ∧
      (∀ f ∈ gif.frames, f.width = 256 ∧ f.height = 310) ∧ gif.finished = true :=
  ⟨⟨by decide, by decide, rfl, rfl, rfl⟩,
    trigger_nine_frames 9 sampleWorld (JSValue.string "avatar.png") [137, 80, 78, 71]
      { width := 1, height := 1, pixels := [10, 20, 30, 40] }
      { width := 1, height := 1, pixels := [10, 20, 30, 40] } (by decide) (by decide)
      rfl rfl rfl⟩

/-- Claim C10: when every result of Math.random is a double u with 0 <= u < 1, each of the
nine frames of trigger draws the caller image at offsets floor(u*20) - 20, integers from
-20 to -1, with size 276 x 276, and the overlay at x offset floor(u*10) - 10, an integer
from -10 to -1, and y position 256 + floor(u*10) - 10, an integer from 246 to 255, with
size 266 x 64. -/
theorem trigger_offsets (fuel : Nat) (w : World) (image : JSValue) (bytes : List Nat)
    (base img : Image) (hfuel : 9 ≤ fuel) (ht : truthy image = true)
    (ha : w.readAsset "triggered" = some bytes)
    (hb : w.decode (JSValue.buffer bytes) = some base) (hi : w.decode image = some img)
    (hrand : ∀ n, isRandomValue (w.random n) = true) :
    ∃ gif, trigger fuel w image = some
        { calls := [Call.loadBuffer "triggered", Call.loadImage (JSValue.buffer bytes),
            Call.loadImage image],
          result := Except.ok gif } ∧
      ∀ k, k < 9 → ∃ x y ox oy : Int,
        -20 ≤ x ∧ x ≤ -1 ∧ -20 ≤ y ∧ y ≤ -1 ∧ -10 ≤ ox ∧ ox ≤ -1 ∧ 246 ≤ oy ∧ oy ≤ 255 ∧
        jitter (w.random (4 * k)) 20 = JSNum.fin (x * (scale : Int)) ∧
        jitter (w.random (4 * k + 1)) 20 = JSNum.fin (y * (scale : Int)) ∧
        jitter (w.random (4 * k + 2)) 10 = JSNum.fin (ox * (scale : Int)) ∧
        jitterBottom (w.random (4 * k + 3)) 10 = JSNum.fin (oy * (scale : Int)) ∧
        gif.frames[k]? = some
          { width := 256, height := 310,
            content :=
              [DrawOp.drawImage img (JSNum.fin (x * (scale : Int)))
                 (JSNum.fin (y * (scale : Int))) 276 276,
               DrawOp.fillRect "#FF000033" 0 0 256 310,
               DrawOp.drawImage base (JSNum.fin (ox * (scale : Int)))
                 (JSNum.fin (oy * (scale : Int))) 266 64] } := by
  refine ⟨_, trigger_run fuel w image bytes base img hfuel ht ha hb hi, ?_⟩
  intro k hk
  obtain ⟨x, x1, x2, hx⟩ := jitter20_range _ (hrand (4 * k))
  obtain ⟨y, y1, y2, hy⟩ := jitter20_range _ (hrand (4 * k + 1))
  obtain ⟨ox, o1, o2, hox⟩ := jitter10_range _ (hrand (4 * k + 2))
  obtain ⟨oy, p1, p2, hoy⟩ := jitterBottom_range _ (hrand (4 * k + 3))
  refine ⟨x, y, ox, oy, x1, x2, y1, y2, o1, o2, p1, p2, hx, hy, hox, hoy, ?_⟩
  show ((List.range 9).map (triggerFrame w img base))[k]? = _
  rw [trigger_frames_get w img base k hk, triggerFrame, hx, hy, hox, hoy]

theorem trigger_offsets_witness :
    (9 ≤ 9 ∧ truthy (JSValue.string "avatar.png") = true ∧
      sampleWorld.readAsset "triggered" = some [137, 80, 78, 71] ∧
      sampleWorld.decode (JSValue.buffer [137, 80, 78, 71]) =
        some { width := 1, height := 1, pixels := [10, 20, 30, 40] } ∧
      sampleWorld.decode (JSValue.string "avatar.png") =
        some { width := 1, height := 1, pixels := [10, 20, 30, 40] }) ∧
    (∀ n : Nat, isRandomValue (sampleWorld.random n) = true) ∧
    ∃ gif, trigger 9 sampleWorld (JSValue.string "avatar.png") = some
        { calls := [Call.loadBuffer "triggered",
            Call.loadImage (JSValue.buffer [137, 80, 78, 71]),
            Call.loadImage (JSValue.string "avatar.png")],
          result := Except.ok gif } ∧
      ∀ k, k < 9 → ∃ x y ox oy : Int,
        -20 ≤ x ∧ x ≤ -1 ∧ -20 ≤ y ∧ y ≤ -1 ∧ -10 ≤ ox ∧ ox ≤ -1 ∧ 246 ≤ oy ∧ oy ≤ 255 ∧
        jitter (sampleWorld.random (4 * k)) 20 = JSNum.fin (x * (scale : Int)) ∧
        jitter (sampleWorld.random (4 * k + 1)) 20 = JSNum.fin (y * (scale : Int)) ∧
        jitter (sampleWorld.random (4 * k + 2)) 10 = JSNum.fin (ox * (scale : Int)) ∧
        jitterBottom (sampleWorld.random (4 * k + 3)) 10 = JSNum.fin (oy * (scale : Int)) ∧
        gif.frames[k]? = some
          { width := 256, height := 310,
            content :=
              [DrawOp.drawImage { width := 1, height := 1, pixels := [10, 20, 30, 40] }
                 (JSNum.fin (x * (scale : Int))) (JSNum.fin (y * (scale : Int))) 276 276,
               DrawOp.fillRect "#FF000033" 0 0 256 310,
               DrawOp.drawImage { width := 1, height := 1, pixels := [10, 20, 30, 40] }
                 (JSNum.fin (ox * (scale : Int))) (JSNum.fin (oy * (scale : Int))) 266 64] } :=
  ⟨⟨by decide, by decide, rfl, rfl, rfl⟩,
    fun _ => (by decide! : isRandomValue lit05 = true),
    trigger_offsets 9 sampleWorld (JSValue.string "avatar.png") [137, 80, 78, 71]
      { width := 1, height := 1, pixels := [10, 20, 30, 40] }
      { width := 1, height := 1, pixels := [10, 20, 30, 40] } (by decide) (by decide)
      rfl rfl rfl (fun _ => (by decide! : isRandomValue lit05 = true))⟩

end Canvacord
